import Mathlib

/-!
Verification of the SpatialParallax relay core.

This file is a shallow embedding of the message-processing pipeline of the
repository's two server variants:

  * `src/source/multiRun/server.py`   (the raw-socket variant, `handler`)
  * `src/source/singleRun/all_in_one.py` (the HTTP+socket variant, `handle_ws`)

Modelling conventions:

  * Python numbers are embedded exactly: `int` as `ℤ`, `float` as a rational
    with explicit `inf` / `-inf` / `NaN` constructors (`PyFloat`).  Floating
    point rounding is abstracted to exact rational arithmetic; special values
    and Python's comparison semantics (NaN compares false) are modelled
    faithfully.  The single square root the code takes (`math.sqrt` in the
    speed computation) produces an irrational value, which is represented
    symbolically by the constructor `PyFloat.sqrtDiv s d` denoting `√s / d`
    (with real-number interpretation `PyFloat.toReal`); this value is only
    ever stored and printed by the code, never fed back into arithmetic or
    comparisons, and it cannot occur in inbound JSON produced by `json.loads`.
  * `bool` is kept separate from numbers at the JSON level but participates in
    `isinstance(x, (int, float))` checks and arithmetic exactly as in Python
    (where `bool` is a subclass of `int`), via the type `NB`.
  * JSON values (the output of `json.loads`) are the inductive `J`.  Python's
    `json` module accepts the literals `Infinity`, `-Infinity` and `NaN`, so
    non-finite floats can occur in parsed input.
  * `json.dumps` followed by `json.loads` round-trips a JSON tree, so the
    string-level serialize/parse pair (both ends in Python's external `json`
    library) is modelled as the identity on `J` trees; the concrete
    serialization `dumps` below abstracts the text format of `json.dumps`
    (exact whitespace and the decimal rendering of floats are not modelled;
    distinct number representations that `json.dumps` prints differently,
    such as `int` vs `float`, are printed differently here too).  The two
    variants serialize differently: `server.py` uses the default
    `ensure_ascii=True` (`dumpsServer`) while `all_in_one.py`'s `pretty`
    passes `ensure_ascii=False`; the `\\uXXXX` escaping of non-ASCII
    characters that distinguishes them is modelled, while the escapes both
    modes share (quotes, backslash, control characters) are not.
-/

/-- A Python `float` value.  `fin q` is a finite value (exact, floating-point
rounding abstracted away); `inf`, `ninf`, `nan` are the IEEE special values;
`sqrtDiv s d` is the symbolic value `√s / d` produced by the code's single
`math.sqrt(...) / dt` computation (never re-entering arithmetic). -/
inductive PyFloat where
  | fin (q : ℚ)
  | inf
  | ninf
  | nan
  | sqrtDiv (s d : ℚ)
deriving DecidableEq

/-- A Python number as produced by arithmetic: an `int` or a `float`. -/
inductive PyNum where
  | int (n : ℤ)
  | float (f : PyFloat)
deriving DecidableEq

/-- A Python value passing `isinstance(x, (int, float))`: an `int`, a `float`,
or a `bool` (Python's `bool` is a subclass of `int`). -/
inductive NB where
  | int (n : ℤ)
  | float (f : PyFloat)
  | bool (b : Bool)
deriving DecidableEq

/-- Comparison view of a float-like value: a finite rational or a special
value.  Used to model Python's `<`, `<=`, `>`, `>=` on numbers. -/
inductive XF where
  | fin (q : ℚ)
  | pinf
  | ninf
  | nan
deriving DecidableEq

/-- Comparison view of a `PyFloat`.  `sqrtDiv` never reaches a comparison in
the modelled code (speed is only stored and printed); it is mapped to `nan`
as a junk value. -/
def PyFloat.xf : PyFloat → XF
  | .fin q => .fin q
  | .inf => .pinf
  | .ninf => .ninf
  | .nan => .nan
  | .sqrtDiv _ _ => .nan

/-- Comparison view of an `NB` (booleans compare as 0/1, as in Python). -/
def NB.xf : NB → XF
  | .int n => .fin n
  | .bool b => .fin (if b then 1 else 0)
  | .float f => f.xf

/-- `a >= b` on comparison views; any NaN operand compares false. -/
def xfGe : XF → XF → Bool
  | .nan, _ => false
  | _, .nan => false
  | .pinf, _ => true
  | _, .pinf => false
  | _, .ninf => true
  | .ninf, _ => false
  | .fin a, .fin b => b ≤ a

/-- `a > b` on comparison views; any NaN operand compares false. -/
def xfGt : XF → XF → Bool
  | .nan, _ => false
  | _, .nan => false
  | .pinf, .pinf => false
  | .pinf, _ => true
  | _, .pinf => false
  | .ninf, _ => false
  | .fin a, .fin b => b < a
  | .fin _, .ninf => true

/-- Python `a >= b` for numeric-or-bool values. -/
def nbGe (a b : NB) : Bool := xfGe a.xf b.xf

/-- Python `a > q` against a finite (literal) rational. -/
def nbGtQ (a : NB) (q : ℚ) : Bool := xfGt a.xf (.fin q)

/-- The `int` value of an `int`/`bool`; junk 0 on `float` (never used there). -/
def NB.toI : NB → ℤ
  | .int n => n
  | .bool b => if b then 1 else 0
  | .float _ => 0

/-- Python `float(x)` on a value that is already an `int`, `bool` or `float`. -/
def NB.toF : NB → PyFloat
  | .int n => .fin n
  | .bool b => .fin (if b then 1 else 0)
  | .float f => f

/-- IEEE subtraction on `float`s, exact in the finite case.  The catch-all
yields NaN (NaN operands, `inf - inf`, `-inf - -inf`, and the unreachable
`sqrtDiv` operands). -/
def pfSub : PyFloat → PyFloat → PyFloat
  | .fin a, .fin b => .fin (a - b)
  | .fin _, .inf => .ninf
  | .fin _, .ninf => .inf
  | .inf, .fin _ => .inf
  | .inf, .ninf => .inf
  | .ninf, .fin _ => .ninf
  | .ninf, .inf => .ninf
  | _, _ => .nan

/-- IEEE addition on `float`s, exact in the finite case. -/
def pfAdd : PyFloat → PyFloat → PyFloat
  | .fin a, .fin b => .fin (a + b)
  | .fin _, .inf => .inf
  | .inf, .fin _ => .inf
  | .inf, .inf => .inf
  | .fin _, .ninf => .ninf
  | .ninf, .fin _ => .ninf
  | .ninf, .ninf => .ninf
  | _, _ => .nan

/-- IEEE multiplication on `float`s, exact in the finite case. -/
def pfMul : PyFloat → PyFloat → PyFloat
  | .fin a, .fin b => .fin (a * b)
  | .fin a, .inf => if 0 < a then .inf else if a < 0 then .ninf else .nan
  | .inf, .fin a => if 0 < a then .inf else if a < 0 then .ninf else .nan
  | .fin a, .ninf => if 0 < a then .ninf else if a < 0 then .inf else .nan
  | .ninf, .fin a => if 0 < a then .ninf else if a < 0 then .inf else .nan
  | .inf, .inf => .inf
  | .inf, .ninf => .ninf
  | .ninf, .inf => .ninf
  | .ninf, .ninf => .inf
  | _, _ => .nan

/-- The `float` value of a `PyNum` (Python's implicit int→float coercion in
mixed arithmetic). -/
def pnToF : PyNum → PyFloat
  | .int n => .fin n
  | .float f => f

/-- IEEE division of two `float`s, exact in the finite case.  Division of a
finite value by (finite) zero raises `ZeroDivisionError` in Python; it is
unreachable behind the code's `dt > 0` guard and is mapped to NaN junk. -/
def pfDivF : PyFloat → PyFloat → PyFloat
  | .fin a, .fin b => if b = 0 then .nan else .fin (a / b)
  | .fin _, .inf => .fin 0
  | .fin _, .ninf => .fin 0
  | .inf, .fin b => if b < 0 then .ninf else if b = 0 then .nan else .inf
  | .ninf, .fin b => if b < 0 then .inf else if b = 0 then .nan else .ninf
  | _, _ => .nan

/-- Python `x / dt` with `x : float` and `dt : int | float`. -/
def pfDivN (a : PyFloat) (d : PyNum) : PyFloat := pfDivF a (pnToF d)

/-- Python `math.sqrt(s) / d` in one step, on comparison views of the
operands.  `math.sqrt` of a negative finite value raises `ValueError` and is
unreachable (the radicand is a sum of squares); those cases are NaN junk.
In the main case the result is the symbolic irrational `sqrtDiv`. -/
def pfSqrtDivF : PyFloat → PyFloat → PyFloat
  | .fin q, .fin b =>
      if q < 0 then .nan else if b = 0 then .nan else .sqrtDiv q b
  | .fin q, .inf => if q < 0 then .nan else .fin 0
  | .fin q, .ninf => if q < 0 then .nan else .fin 0
  | .inf, .fin b => if b < 0 then .ninf else if b = 0 then .nan else .inf
  | .inf, .inf => .nan
  | .inf, .ninf => .nan
  | _, _ => .nan

/-- Python `math.sqrt(s) / dt` with `dt : int | float`. -/
def pfSqrtDivN (s : PyFloat) (d : PyNum) : PyFloat := pfSqrtDivF s (pnToF d)

/-- Python `a - b` on numeric-or-bool values: `int`/`bool` minus `int`/`bool`
is an `int`; anything involving a `float` is a `float`. -/
def nbSub (a b : NB) : PyNum :=
  match a, b with
  | .float f, b => .float (pfSub f b.toF)
  | a, .float g => .float (pfSub a.toF g)
  | a, b => .int (a.toI - b.toI)

/-- Python `dt > 0` for an `int | float` value (false on NaN). -/
def pnGtZ (d : PyNum) : Bool := xfGt (pnToF d).xf (.fin 0)

/-- Python `dt <= 0` for an `int | float` value (false on NaN: NaN is neither
`> 0` nor `<= 0`). -/
def pnLeZ (d : PyNum) : Bool := xfGe (XF.fin 0) (pnToF d).xf

/-- Finite rational value of an `NB`, if it has one (booleans count 0/1;
`inf`, `-inf`, `NaN` and the symbolic `sqrtDiv` have none). -/
def nbVal : NB → Option ℚ
  | .int n => some n
  | .bool b => some (if b then 1 else 0)
  | .float (.fin q) => some q
  | .float _ => none

/-- Finite rational value of a `PyNum`, if it has one. -/
def pnVal : PyNum → Option ℚ
  | .int n => some n
  | .float (.fin q) => some q
  | .float _ => none

/-- Whether a `PyNum` is the float NaN. -/
def pnIsNan : PyNum → Bool
  | .float .nan => true
  | _ => false

/-- Real-number interpretation of a `PyFloat` (junk 0 for the special
values; used only to state what the finite/symbolic values denote). -/
noncomputable def PyFloat.toReal : PyFloat → ℝ
  | .fin q => (q : ℝ)
  | .sqrtDiv s d => Real.sqrt (s : ℝ) / (d : ℝ)
  | _ => 0

example : pfSub (.fin 3) (.fin 1) = .fin 2 := by with_unfolding_all decide
example : pfSub .inf .inf = .nan := by with_unfolding_all decide
example : nbSub (.int 5) (.bool true) = .int 4 := by with_unfolding_all decide
example : nbSub (.int 5) (.float (.fin 1)) = .float (.fin 4) := by with_unfolding_all decide
example : nbGe (.float .nan) (.int 0) = false := by with_unfolding_all decide
example : nbGe (.float .inf) (.int 7) = true := by with_unfolding_all decide
example : pnLeZ (.float .nan) = false := by with_unfolding_all decide
example : pnGtZ (.float .nan) = false := by with_unfolding_all decide
example : pfDivN (.fin 3) (.int 2) = .fin (3/2) := by with_unfolding_all decide
example : pfSqrtDivN (.fin 4) (.float (.fin 2)) = .sqrtDiv 4 2 := by with_unfolding_all decide

/-- A JSON value as produced by Python's `json.loads`: `null`, booleans,
numbers (`int` or `float`, including the non-finite literals `Infinity`,
`-Infinity`, `NaN` that Python's `json` accepts), strings, arrays, objects
(association lists in insertion order; `json.loads` never produces duplicate
keys). -/
inductive J where
  | null
  | bool (b : Bool)
  | num (v : PyNum)
  | str (s : String)
  | arr (elems : List J)
  | obj (fields : List (String × J))

/-- Association-list lookup, first match (Python dicts have unique keys). -/
def lookupField : List (String × J) → String → Option J
  | [], _ => none
  | (k, v) :: rest, key => if k = key then some v else lookupField rest key

/-- Python `d.get(k)` (returning `None` on a missing key, modelled as
`Option.none`) and `d[k]` (raising `KeyError` on a missing key and
`TypeError` on a non-dict, both caught by the code's `except` and modelled
as `Option.none` as well). -/
def jGet : J → String → Option J
  | .obj fields, k => lookupField fields k
  | _, _ => none

/-- Python truthiness of a JSON value (`if not pos`): `None`, `False`,
numeric zero, and empty strings/lists/dicts are falsy.  NaN and the
infinities are truthy.  (`sqrtDiv` cannot occur in parsed input; junk
truthy.) -/
def jTruthy : J → Bool
  | .null => false
  | .bool b => b
  | .num (.int n) => n ≠ 0
  | .num (.float (.fin q)) => q ≠ 0
  | .num (.float _) => true
  | .str s => s ≠ ""
  | .arr xs => !xs.isEmpty
  | .obj fields => !fields.isEmpty

/-- Whether a JSON value is a dict (`isinstance(x, dict)`). -/
def jIsObj : J → Bool
  | .obj _ => true
  | _ => false

/-- The `isinstance(x, (int, float))` view of a JSON value: numbers and
booleans qualify (Python `bool` is a subclass of `int`); everything else
does not. -/
def jAsNB : J → Option NB
  | .num (.int n) => some (.int n)
  | .num (.float f) => some (.float f)
  | .bool b => some (.bool b)
  | _ => none

/-- Numeric value of a digit list, most significant first. -/
def digitsVal (cs : List Char) : ℕ :=
  cs.foldl (fun acc c => acc * 10 + (c.toNat - '0'.toNat)) 0

/-- Whether every character is an ASCII digit. -/
def allDigits (cs : List Char) : Bool := cs.all Char.isDigit

/-- Parse the mantissa part of a Python float literal: `digits`, `digits.`,
`.digits` or `digits.digits` (at least one digit overall). -/
def parseMantissa (cs : List Char) : Option ℚ :=
  let p := cs.span (fun c => c ≠ '.')
  match p.2 with
  | [] => if p.1.isEmpty || !allDigits p.1 then none else some (digitsVal p.1)
  | _ :: b =>
      if p.1.isEmpty && b.isEmpty then none
      else if !allDigits p.1 || !allDigits b then none
      else some ((digitsVal p.1 : ℚ) + (digitsVal b : ℚ) / ((10 : ℚ) ^ b.length))

/-- Parse the exponent of a Python float literal: optional sign, digits. -/
def parseExp (cs : List Char) : Option ℤ :=
  match cs with
  | '+' :: ds => if ds.isEmpty || !allDigits ds then none else some (digitsVal ds)
  | '-' :: ds => if ds.isEmpty || !allDigits ds then none else some (-(digitsVal ds : ℤ))
  | ds => if ds.isEmpty || !allDigits ds then none else some (digitsVal ds)

/-- Parse an unsigned decimal float literal `mantissa[(e|E)exponent]`. -/
def parseDecCore (cs : List Char) : Option ℚ :=
  let p := cs.span (fun c => c ≠ 'e' && c ≠ 'E')
  match p.2 with
  | [] => parseMantissa p.1
  | _ :: ex =>
      match parseMantissa p.1, parseExp ex with
      | some q, some e => some (q * (10 : ℚ) ^ e)
      | _, _ => none

/-- Negation of a `float` (junk identity on the unreachable `sqrtDiv`). -/
def pfNeg : PyFloat → PyFloat
  | .fin q => .fin (-q)
  | .inf => .ninf
  | .ninf => .inf
  | .nan => .nan
  | .sqrtDiv s d => .sqrtDiv s d

/-- Parse an unsigned Python float literal: `inf`, `infinity`, `nan`
(case-insensitive) or a decimal literal. -/
def parseFloatBody (cs : List Char) : Option PyFloat :=
  let lower := cs.map Char.toLower
  if lower = "inf".toList || lower = "infinity".toList then some .inf
  else if lower = "nan".toList then some .nan
  else (parseDecCore cs).map .fin

/-- Python `float(s)` on a string: strip surrounding whitespace, optional
sign, then a float literal; `None` models the `ValueError` the code catches.
(PEP 515 underscore separators are not modelled.) -/
def parseFloatStr (s : String) : Option PyFloat :=
  let t := ((s.toList.dropWhile Char.isWhitespace).reverse.dropWhile
    Char.isWhitespace).reverse
  match t with
  | '+' :: rest => parseFloatBody rest
  | '-' :: rest => (parseFloatBody rest).map pfNeg
  | rest => parseFloatBody rest

/-- Python `float(x)` on a JSON value: numbers and booleans convert, strings
go through the float-literal parser, and `None`, lists and dicts raise
`TypeError` (modelled as `Option.none`; the code catches the exception). -/
def pyFloat : J → Option PyFloat
  | .num (.int n) => some (.fin n)
  | .num (.float f) => some f
  | .bool b => some (.fin (if b then 1 else 0))
  | .str s => parseFloatStr s
  | _ => none

/-- Rendering of a `float` by `json.dumps`/`repr` (decimal text abstracted:
finite values print as their exact rational; what matters for the claims is
that values `json.dumps` distinguishes are distinguished here, e.g. the
`int` `1000` prints without and the `float` `1000.0` with a decimal part). -/
def pfRepr : PyFloat → String
  | .fin q => if q.den = 1 then toString q.num ++ ".0" else toString q
  | .inf => "Infinity"
  | .ninf => "-Infinity"
  | .nan => "NaN"
  | .sqrtDiv s d => "sqrt(" ++ toString s ++ ")/" ++ toString d

/-- Rendering of an `int | float` by `json.dumps`. -/
def pnRepr : PyNum → String
  | .int n => toString n
  | .float f => pfRepr f

/-- One hexadecimal digit (lower case), as emitted by `json.dumps` in
`\\uXXXX` escapes. -/
def hexDigit (n : ℕ) : Char :=
  if n < 10 then Char.ofNat ('0'.toNat + n) else Char.ofNat ('a'.toNat + n - 10)

/-- Four-digit hexadecimal rendering of a code unit. -/
def hex4 (n : ℕ) : String :=
  String.mk [hexDigit (n / 4096 % 16), hexDigit (n / 256 % 16),
    hexDigit (n / 16 % 16), hexDigit (n % 16)]

/-- One character of a JSON string as emitted by `json.dumps`: with
`ensure_ascii=True` (the default, used by `server.py`) every non-ASCII
character becomes a `\\uXXXX` escape (a surrogate pair beyond the BMP);
with `ensure_ascii=False` (passed by `all_in_one.py`'s `pretty`) it is kept
verbatim.  The escapes both modes share (quotes, backslash, control
characters) are not modelled: they produce identical text in both modes, so
no claim depends on them. -/
def escChar (ascii : Bool) (c : Char) : String :=
  if ascii && decide (128 ≤ c.toNat) then
    if c.toNat < 65536 then "\\u" ++ hex4 c.toNat
    else
      "\\u" ++ hex4 (55296 + (c.toNat - 65536) / 1024) ++
      "\\u" ++ hex4 (56320 + (c.toNat - 65536) % 1024)
  else String.singleton c

/-- Body of a serialized JSON string, character by character. -/
def jstrBodyL (ascii : Bool) : List Char → String
  | [] => ""
  | c :: rest => escChar ascii c ++ jstrBodyL ascii rest

/-- Body of a serialized JSON string. -/
def jstrBody (ascii : Bool) (s : String) : String := jstrBodyL ascii s.toList

mutual
/-- The broadcast serialization, shared shape of `json.dumps(update,
indent=2)` (server.py, `ensure_ascii=True`) and `pretty(update)`
(all_in_one.py, `ensure_ascii=False`), distinguished by the `ascii` flag;
whitespace/indentation is abstracted, and the function distinguishes what
`json.dumps` distinguishes on the values the relay produces (`int` vs
`float` numbers, and non-ASCII strings across the two modes). -/
def dumps (ascii : Bool) : J → String
  | .null => "null"
  | .bool b => if b then "true" else "false"
  | .num v => pnRepr v
  | .str s => "\"" ++ jstrBody ascii s ++ "\""
  | .arr xs => "[" ++ dumpsL ascii xs ++ "]"
  | .obj fields => "\x7b" ++ dumpsKV ascii fields ++ "\x7d"

/-- Serialization of a JSON array's elements. -/
def dumpsL (ascii : Bool) : List J → String
  | [] => ""
  | [x] => dumps ascii x
  | x :: y :: rest => dumps ascii x ++ ", " ++ dumpsL ascii (y :: rest)

/-- Serialization of a JSON object's fields. -/
def dumpsKV (ascii : Bool) : List (String × J) → String
  | [] => ""
  | [(k, v)] => "\"" ++ jstrBody ascii k ++ "\": " ++ dumps ascii v
  | (k, v) :: y :: rest =>
      "\"" ++ jstrBody ascii k ++ "\": " ++ dumps ascii v ++ ", " ++
      dumpsKV ascii (y :: rest)
end

/-- `server.py`'s broadcast serialization `json.dumps(update, indent=2)`
(default `ensure_ascii=True`). -/
def dumpsServer (u : J) : String := dumps true u

/-- `all_in_one.py`'s broadcast serialization
`json.dumps(obj, indent=2, ensure_ascii=False)` (the `pretty` helper). -/
def pretty (u : J) : String := dumps false u

set_option maxRecDepth 8000

example : pyFloat (.str "  1.5e3") = some (.fin 1500) := by
  with_unfolding_all decide
example : pyFloat (.str "-inf") = some .ninf := by with_unfolding_all decide
example : pyFloat (.str "x2") = none := by with_unfolding_all decide
example : pyFloat (.str ".5") = some (.fin (1/2)) := by with_unfolding_all decide
example : pyFloat .null = none := by with_unfolding_all decide
example : pyFloat (.bool true) = some (.fin 1) := by with_unfolding_all decide
example : pretty (.num (.int 1000)) = "1000" := by with_unfolding_all decide
example : pretty (.num (.float (.fin 1000))) = "1000.0" := by
  with_unfolding_all decide

/-- The per-connection stored last pose, `client_last[ws] = {"pos": {"x": px,
"y": py, "z": pz}, "ts": ts_s}`.  Both variants only ever store a dict of
this shape, so the code's re-checks `isinstance(last.get("pos"), dict)` and
`isinstance(last.get("ts"), (int, float))` always pass on a stored value and
are absorbed into the type. -/
structure LastPose where
  px : PyFloat
  py : PyFloat
  pz : PyFloat
  ts : NB
deriving DecidableEq

/-- The velocity record `{"vx": .., "vy": .., "vz": .., "speed_m_s": ..,
"dt": ..}`. -/
structure Vel where
  vx : PyFloat
  vy : PyFloat
  vz : PyFloat
  speed : PyFloat
  dt : PyNum
deriving DecidableEq

/-- The elapsed time both variants compute:
`dt = ts_s - last["ts"] if ts_s >= last["ts"] else (fallback_now - last["ts"])`. -/
def dt_used (l : LastPose) (ts_s fallback_now : NB) : PyNum :=
  if nbGe ts_s l.ts then nbSub ts_s l.ts else nbSub fallback_now l.ts

/-- The velocity fields both variants compute from a prior pose and an
elapsed time: displacement components, component velocities, and
`speed = math.sqrt(dx*dx + dy*dy + dz*dz) / dt`. -/
def velOf (l : LastPose) (px py pz : PyFloat) (dt : PyNum) : Vel :=
  let dx := pfSub px l.px
  let dy := pfSub py l.py
  let dz := pfSub pz l.pz
  { vx := pfDivN dx dt
    vy := pfDivN dy dt
    vz := pfDivN dz dt
    speed := pfSqrtDivN (pfAdd (pfAdd (pfMul dx dx) (pfMul dy dy)) (pfMul dz dz)) dt
    dt := dt }

/-- `compute_velocity` of `all_in_one.py` (lines 104-124): `None` without a
prior pose; elapsed time per `dt_used`; `if dt <= 0: return None` (note:
false for NaN `dt`, which therefore slips past this guard); otherwise the
populated velocity dict. -/
def compute_velocity (last : Option LastPose) (px py pz : PyFloat)
    (ts_s fallback_now : NB) : Option Vel :=
  match last with
  | none => none
  | some l =>
      let dt := dt_used l ts_s fallback_now
      if pnLeZ dt then none else some (velOf l px py pz dt)

/-- The inline velocity block of `server.py`'s `handler` (lines 99-116):
identical to `compute_velocity` except that it attaches the record under
`if dt > 0:` (also false for NaN `dt`, so NaN is rejected here while
`compute_velocity` lets it through). -/
def server_velocity (last : Option LastPose) (px py pz : PyFloat)
    (ts_s fallback_now : NB) : Option Vel :=
  match last with
  | none => none
  | some l =>
      let dt := dt_used l ts_s fallback_now
      if pnGtZ dt then some (velOf l px py pz dt) else none

example :
    compute_velocity (some ⟨.fin 0, .fin 0, .fin 0, .float (.fin 1000)⟩)
      (.fin 1) (.fin 0) (.fin 0) (.float (.fin 1001)) (.float (.fin 1002)) =
    some ⟨.fin 1, .fin 0, .fin 0, .sqrtDiv 1 1, .float (.fin 1)⟩ := by
  with_unfolding_all decide

example :
    compute_velocity (some ⟨.fin 0, .fin 0, .fin 0, .float .nan⟩)
      (.fin 1) (.fin 0) (.fin 0) (.float (.fin 1001)) (.float (.fin 1002)) =
    some ⟨.nan, .nan, .nan, .nan, .float .nan⟩ := by
  with_unfolding_all decide

example :
    server_velocity (some ⟨.fin 0, .fin 0, .fin 0, .float .nan⟩)
      (.fin 1) (.fin 0) (.fin 0) (.float (.fin 1001)) (.float (.fin 1002)) =
    none := by
  with_unfolding_all decide

/-- Timestamp normalization of `server.py` (lines 76-80): if `ts` is present
and passes `isinstance(ts, (int, float))` (booleans included), divide by
`1000.0` when `ts > 1e12`, else keep the raw value with its exact Python
type; otherwise substitute the server wall-clock time `now` (a float). -/
def server_ts (data : J) (now : ℚ) : NB :=
  match (jGet data "ts").bind jAsNB with
  | some nb => if nbGtQ nb (10 ^ 12) then .float (pfDivF nb.toF (.fin 1000)) else nb
  | none => .float (.fin now)

/-- Timestamp normalization of `all_in_one.py` (lines 646-652): same
heuristic, but the kept raw value goes through `float(raw_ts)`, so the
result is always a float. -/
def all_ts (data : J) (now : ℚ) : PyFloat :=
  match (jGet data "ts").bind jAsNB with
  | some nb => if nbGtQ nb (10 ^ 12) then pfDivF nb.toF (.fin 1000) else nb.toF
  | none => .fin now

/-- One coordinate read `float(d["k"])`: subscript then convert, any
`KeyError`/`TypeError`/`ValueError` caught by the surrounding `except`. -/
def fl (d : J) (k : String) : Option PyFloat := (jGet d k).bind pyFloat

/-- The coordinate-extraction `try` block shared by both variants:
`px, py, pz = float(pos["x"]), float(pos["y"]), float(pos["z"])` and
`rx, ry, rz, rw = float(rot["x"]), ..., float(rot["w"])`; any exception
drops the message. -/
def extract7 (pos rot : J) :
    Option (PyFloat × PyFloat × PyFloat × PyFloat × PyFloat × PyFloat × PyFloat) := do
  let px ← fl pos "x"
  let py ← fl pos "y"
  let pz ← fl pos "z"
  let rx ← fl rot "x"
  let ry ← fl rot "y"
  let rz ← fl rot "z"
  let rw ← fl rot "w"
  return (px, py, pz, rx, ry, rz, rw)

/-- A validated inbound pose sample: the fields both handlers carry forward
into the stored last pose and the broadcast update. -/
structure Sample where
  cid : J
  ts : NB
  px : PyFloat
  py : PyFloat
  pz : PyFloat
  rx : PyFloat
  ry : PyFloat
  rz : PyFloat
  rw : PyFloat

/-- The last-pose dict saved for the connection,
`client_last[ws] = {"pos": {"x": px, "y": py, "z": pz}, "ts": ts_s}`. -/
def lastOf (s : Sample) : LastPose := ⟨s.px, s.py, s.pz, s.ts⟩

/-- Embedding of an `int | float | bool` Python value into a JSON tree (for
the `ts` field of the update, which `server.py` stores with its exact
type). -/
def nbToJ : NB → J
  | .int n => .num (.int n)
  | .float f => .num (.float f)
  | .bool b => .bool b

/-- The `"position"` subobject of the update. -/
def posObjJ (x y z : PyFloat) : J :=
  .obj [("x", .num (.float x)), ("y", .num (.float y)), ("z", .num (.float z))]

/-- The `"rotation"` subobject of the update. -/
def rotObjJ (x y z w : PyFloat) : J :=
  .obj [("x", .num (.float x)), ("y", .num (.float y)), ("z", .num (.float z)),
        ("w", .num (.float w))]

/-- The `"velocity"` subobject of the update. -/
def velJ (v : Vel) : J :=
  .obj [("vx", .num (.float v.vx)), ("vy", .num (.float v.vy)),
        ("vz", .num (.float v.vz)), ("speed_m_s", .num (.float v.speed)),
        ("dt", .num v.dt)]

/-- The broadcast update dict built by both handlers, in insertion order:
`clientId`, `ts`, `position`, `rotation`, and `velocity` only when
derivable. -/
def updateJ (cid : J) (ts : NB) (px py pz rx ry rz rw : PyFloat)
    (vel : Option Vel) : J :=
  .obj ([("clientId", cid), ("ts", nbToJ ts), ("position", posObjJ px py pz),
         ("rotation", rotObjJ rx ry rz rw)] ++
        (match vel with
         | some v => [("velocity", velJ v)]
         | none => []))

/-- An inbound websocket text message after `json.loads`: either the parse
raised (malformed payload, logged and skipped) or it produced a JSON
value. -/
inductive Inbound where
  | malformed
  | payload (data : J)

/-- What one handler-loop iteration decides to do with an inbound message:
drop it with a logged diagnostic, drop it silently, or accept it (updating
this connection's stored pose to `lastOf s` and broadcasting `u`). -/
inductive Decision where
  | dropLog
  | dropSilent
  | accept (s : Sample) (u : J)

/-- The acceptance outcome of a `Decision` (what was accepted, if
anything). -/
def Decision.acc : Decision → Option J
  | .accept _ u => some u
  | _ => none

/-- The per-message decision logic of `server.py`'s `handler` (lines
63-132): log-and-skip on malformed JSON; silently skip non-dict payloads;
read `clientId` (defaulting only on a missing key), normalize `ts`; skip
silently unless `position` and `rotation` are both truthy; extract the seven
coordinates, skipping silently on any conversion failure; compute the
velocity against this connection's stored pose (fallback clock = the same
`now = time.time()` captured at receipt); accept with the stored-pose update
and the broadcast dict. -/
def serverDecide (st : Option LastPose) (clk : ℚ) (m : Inbound) : Decision :=
  match m with
  | .malformed => .dropLog
  | .payload data =>
      match data with
      | .obj _ =>
          let cid := (jGet data "clientId").getD (.str "unknown")
          let ts_s := server_ts data clk
          let pos := (jGet data "position").getD .null
          let rot := (jGet data "rotation").getD .null
          if !jTruthy pos || !jTruthy rot then .dropSilent
          else
            match extract7 pos rot with
            | none => .dropSilent
            | some (px, py, pz, rx, ry, rz, rw) =>
                let vel := server_velocity st px py pz ts_s (.float (.fin clk))
                .accept ⟨cid, ts_s, px, py, pz, rx, ry, rz, rw⟩
                  (updateJ cid ts_s px py pz rx ry rz rw vel)
      | _ => .dropSilent

/-- The per-message decision logic of `all_in_one.py`'s `handle_ws` (lines
634-684): same pipeline, with the differences of the source: `ts` is
coerced to float, the `position`/`rotation` guard is `isinstance(_, dict)`
instead of truthiness, the velocity is `compute_velocity` (whose `dt <= 0`
guard lets NaN through), and the fallback clock is a second `now_s()` call
`clk2`. -/
def allDecide (st : Option LastPose) (clk clk2 : ℚ) (m : Inbound) : Decision :=
  match m with
  | .malformed => .dropLog
  | .payload data =>
      match data with
      | .obj _ =>
          let ts_f := all_ts data clk
          let pos := (jGet data "position").getD .null
          let rot := (jGet data "rotation").getD .null
          if !(jIsObj pos && jIsObj rot) then .dropSilent
          else
            match extract7 pos rot with
            | none => .dropSilent
            | some (px, py, pz, rx, ry, rz, rw) =>
                let cid := (jGet data "clientId").getD (.str "unknown")
                let vel := compute_velocity st px py pz (.float ts_f) (.float (.fin clk2))
                .accept ⟨cid, .float ts_f, px, py, pz, rx, ry, rz, rw⟩
                  (updateJ cid (.float ts_f) px py pz rx ry rz rw vel)
      | _ => .dropSilent

/-- A live-registry entry as the broadcast engines see it: an identity, the
transport's open/closed state, and whether a send to it would succeed
(`sendOk = false` models a send that raises). -/
structure Conn where
  cid : ℕ
  isOpen : Bool
  sendOk : Bool
deriving DecidableEq

/-- Observable events of one handler-loop iteration, in order: a call to the
serializer (`json.dumps`/`pretty`) returning `s`; the pretty payload printed
to the process log; the invalid-JSON diagnostic; a successful delivery of
`s` to connection `c`; the logged send-error diagnostic for connection `c`
(printed by `_safe_send`'s `except` handler with the peer identity). -/
inductive Ev where
  | ser (s : String)
  | log (s : String)
  | logInvalid
  | sent (c : ℕ) (s : String)
  | sendErr (c : ℕ)
deriving DecidableEq

/-- `_safe_send` of `server.py` (lines 31-38): one send attempt with every
exception caught and logged, never propagated. -/
def safe_send (c : Conn) (s : String) : List Ev :=
  if c.sendOk then [.sent c.cid s] else [.sendErr c.cid]

/-- `broadcast_json` of `server.py` (lines 41-51): serialize once, print the
text to the log, snapshot the open connections, and fire one independent
`_safe_send` per open connection (gathered; an early return when no
connection is open changes nothing observable). -/
def broadcast_json (clients : List Conn) (u : J) : List Ev :=
  let s := dumpsServer u
  [.ser s, .log s] ++ (clients.filter (·.isOpen)).flatMap (fun c => safe_send c s)

/-- `_safe_send` of `all_in_one.py` (lines 84-92): skip a closed socket,
otherwise serialize (`pretty(data)` is evaluated as the argument of
`send_str`, so it happens even when the send then raises) and attempt the
send, catching and logging any exception. -/
def all_safe_send (c : Conn) (u : J) : List Ev :=
  if !c.isOpen then []
  else .ser (pretty u) :: (if c.sendOk then [.sent c.cid (pretty u)] else [.sendErr c.cid])

/-- `broadcast` of `all_in_one.py` (lines 95-101): serialize for the log,
print it, and fire one independent `_safe_send` per open connection (each of
which serializes again). -/
def broadcast_all (clients : List Conn) (u : J) : List Ev :=
  [.ser (pretty u), .log (pretty u)] ++
    (clients.filter (·.isOpen)).flatMap (fun c => all_safe_send c u)

/-- One receive-loop iteration of `server.py`'s `handler` for one inbound
message: the updated stored pose for this connection and the observable
events.  A dropped message leaves the stored pose untouched (`continue`
precedes the `client_last[websocket] = ...` assignment). -/
def serverStep (st : Option LastPose) (clients : List Conn) (clk : ℚ)
    (m : Inbound) : Option LastPose × List Ev :=
  match serverDecide st clk m with
  | .dropLog => (st, [.logInvalid])
  | .dropSilent => (st, [])
  | .accept s u => (some (lastOf s), broadcast_json clients u)

/-- One receive-loop iteration of `all_in_one.py`'s `handle_ws` for one
inbound text message. -/
def allStep (st : Option LastPose) (clients : List Conn) (clk clk2 : ℚ)
    (m : Inbound) : Option LastPose × List Ev :=
  match allDecide st clk clk2 m with
  | .dropLog => (st, [.logInvalid])
  | .dropSilent => (st, [])
  | .accept s u => (some (lastOf s), broadcast_all clients u)

/-- A well-formed first message, as in the spec's walkthrough scenario. -/
def msgA : J :=
  .obj [("clientId", .str "a"), ("ts", .num (.float (.fin 1000))),
        ("position", posObjJ (.fin 0) (.fin 0) (.fin 0)),
        ("rotation", rotObjJ (.fin 0) (.fin 0) (.fin 0) (.fin 1))]

/-- The follow-up message of the walkthrough scenario. -/
def msgB : J :=
  .obj [("clientId", .str "a"), ("ts", .num (.float (.fin 1001))),
        ("position", posObjJ (.fin 1) (.fin 0) (.fin 0)),
        ("rotation", rotObjJ (.fin 0) (.fin 0) (.fin 0) (.fin 1))]

example :
    (serverDecide none 5 (.payload msgA)).acc =
    some (updateJ (.str "a") (.float (.fin 1000)) (.fin 0) (.fin 0) (.fin 0)
      (.fin 0) (.fin 0) (.fin 0) (.fin 1) none) := by
  with_unfolding_all rfl

example :
    (serverDecide (some ⟨.fin 0, .fin 0, .fin 0, .float (.fin 1000)⟩) 5
      (.payload msgB)).acc =
    some (updateJ (.str "a") (.float (.fin 1001)) (.fin 1) (.fin 0) (.fin 0)
      (.fin 0) (.fin 0) (.fin 0) (.fin 1)
      (some ⟨.fin 1, .fin 0, .fin 0, .sqrtDiv 1 1, .float (.fin 1)⟩)) := by
  with_unfolding_all rfl

example :
    (allDecide (some ⟨.fin 0, .fin 0, .fin 0, .float (.fin 1000)⟩) 5 6
      (.payload msgB)).acc =
    (serverDecide (some ⟨.fin 0, .fin 0, .fin 0, .float (.fin 1000)⟩) 5
      (.payload msgB)).acc := by
  with_unfolding_all rfl

theorem nbVal_some {a : NB} {q : ℚ} (h : nbVal a = some q) : a.xf = .fin q := by
  cases a with
  | int n =>
      simp only [nbVal, Option.some.injEq] at h
      simp [NB.xf, h]
  | bool b =>
      simp only [nbVal, Option.some.injEq] at h
      simp [NB.xf, h]
  | float f =>
      cases f <;> simp_all [nbVal, NB.xf, PyFloat.xf]

theorem nbGe_val {a b : NB} {qa qb : ℚ} (ha : nbVal a = some qa)
    (hb : nbVal b = some qb) : nbGe a b = decide (qb ≤ qa) := by
  unfold nbGe
  rw [nbVal_some ha, nbVal_some hb]
  rfl

theorem nbVal_cases {a : NB} {q : ℚ} (h : nbVal a = some q) :
    (∃ n : ℤ, a = .int n ∧ (n : ℚ) = q) ∨
    (∃ b, a = .bool b ∧ (if b then (1 : ℚ) else 0) = q) ∨
    a = .float (.fin q) := by
  cases a with
  | int n => exact Or.inl ⟨n, rfl, by simpa [nbVal] using h⟩
  | bool b => exact Or.inr (Or.inl ⟨b, rfl, by simpa [nbVal] using h⟩)
  | float f => cases f <;> simp_all [nbVal]

theorem nbSub_val {a b : NB} {qa qb : ℚ} (ha : nbVal a = some qa)
    (hb : nbVal b = some qb) : pnVal (nbSub a b) = some (qa - qb) := by
  rcases nbVal_cases ha with ⟨n, rfl, hn⟩ | ⟨x, rfl, hx⟩ | rfl <;>
    rcases nbVal_cases hb with ⟨m, rfl, hm⟩ | ⟨y, rfl, hy⟩ | rfl <;>
    simp_all [nbSub, NB.toI, NB.toF, pfSub, pnVal] <;>
    push_cast <;>
    subst_vars <;>
    ring

theorem pnVal_cases {d : PyNum} {q : ℚ} (h : pnVal d = some q) :
    (∃ n : ℤ, d = .int n ∧ (n : ℚ) = q) ∨ d = .float (.fin q) := by
  cases d with
  | int n => exact Or.inl ⟨n, rfl, by simpa [pnVal] using h⟩
  | float f => cases f <;> simp_all [pnVal]

theorem pnLeZ_val {d : PyNum} {q : ℚ} (h : pnVal d = some q) :
    pnLeZ d = decide (q ≤ 0) := by
  rcases pnVal_cases h with ⟨n, rfl, hn⟩ | rfl <;>
    simp_all [pnLeZ, pnToF, PyFloat.xf, xfGe] <;> push_cast [← hn] <;> norm_num

theorem pnGtZ_val {d : PyNum} {q : ℚ} (h : pnVal d = some q) :
    pnGtZ d = decide (0 < q) := by
  rcases pnVal_cases h with ⟨n, rfl, hn⟩ | rfl <;>
    simp_all [pnGtZ, pnToF, PyFloat.xf, xfGt] <;> push_cast [← hn] <;> norm_num

theorem pfDivN_fin {a : ℚ} {d : PyNum} {q : ℚ} (h : pnVal d = some q)
    (hq : q ≠ 0) : pfDivN (.fin a) d = .fin (a / q) := by
  rcases pnVal_cases h with ⟨n, rfl, hn⟩ | rfl <;>
    simp_all [pfDivN, pnToF, pfDivF] <;> subst hn <;>
    simp_all [Int.cast_eq_zero]

theorem pfSqrtDivN_fin {s : ℚ} {d : PyNum} {q : ℚ} (h : pnVal d = some q)
    (hs : ¬ s < 0) (hq : q ≠ 0) : pfSqrtDivN (.fin s) d = .sqrtDiv s q := by
  rcases pnVal_cases h with ⟨n, rfl, hn⟩ | rfl <;>
    simp_all [pfSqrtDivN, pnToF, pfSqrtDivF] <;> subst hn <;>
    simp_all [Int.cast_eq_zero]

/-- C1: for a stored previous sample A and a newly accepted sample B whose
(normalized) timestamps have finite values `qa < qb` and whose coordinates
are finite, both variants' velocity estimators return a VelocityEstimate
with `dt = B.timestamp - A.timestamp`, component velocities
`v* = (B.* - A.*) / dt`, and speed equal to the Euclidean norm of the
displacement divided by `dt`. -/
theorem C1_velocity_formula (ax ay az bx by_ bz : ℚ) (ta tb fb : NB)
    (qa qb : ℚ) (hta : nbVal ta = some qa) (htb : nbVal tb = some qb)
    (hlt : qa < qb) :
    ∃ v : Vel,
      compute_velocity (some ⟨.fin ax, .fin ay, .fin az, ta⟩)
        (.fin bx) (.fin by_) (.fin bz) tb fb = some v ∧
      server_velocity (some ⟨.fin ax, .fin ay, .fin az, ta⟩)
        (.fin bx) (.fin by_) (.fin bz) tb fb = some v ∧
      pnVal v.dt = some (qb - qa) ∧
      v.vx = .fin ((bx - ax) / (qb - qa)) ∧
      v.vy = .fin ((by_ - ay) / (qb - qa)) ∧
      v.vz = .fin ((bz - az) / (qb - qa)) ∧
      v.speed.toReal =
        Real.sqrt ((bx - ax) ^ 2 + (by_ - ay) ^ 2 + (bz - az) ^ 2) / (qb - qa) := by
  have hge : nbGe tb ta = true := by
    rw [nbGe_val htb hta]
    simpa using le_of_lt hlt
  have hdtv : pnVal (nbSub tb ta) = some (qb - qa) := nbSub_val htb hta
  have hpos : (0 : ℚ) < qb - qa := by linarith
  have hne : qb - qa ≠ 0 := ne_of_gt hpos
  have hdu : dt_used ⟨.fin ax, .fin ay, .fin az, ta⟩ tb fb = nbSub tb ta := by
    simp [dt_used, hge]
  have hLe : pnLeZ (nbSub tb ta) = false := by
    rw [pnLeZ_val hdtv]
    simpa using hpos
  have hGt : pnGtZ (nbSub tb ta) = true := by
    rw [pnGtZ_val hdtv]
    simpa using hpos
  refine ⟨velOf ⟨.fin ax, .fin ay, .fin az, ta⟩ (.fin bx) (.fin by_) (.fin bz)
    (nbSub tb ta), ?_, ?_, ?_, ?_, ?_, ?_, ?_⟩
  · simp [compute_velocity, hdu, hLe]
  · simp [server_velocity, hdu, hGt]
  · simpa [velOf] using hdtv
  · simpa [velOf, pfSub] using pfDivN_fin hdtv hne
  · simpa [velOf, pfSub] using pfDivN_fin hdtv hne
  · simpa [velOf, pfSub] using pfDivN_fin hdtv hne
  · have hs : ¬ ((bx - ax) * (bx - ax) + (by_ - ay) * (by_ - ay) +
        (bz - az) * (bz - az)) < 0 :=
      not_lt.mpr (by nlinarith [mul_self_nonneg (bx - ax),
        mul_self_nonneg (by_ - ay), mul_self_nonneg (bz - az)])
    have hsq := pfSqrtDivN_fin (s := (bx - ax) * (bx - ax) +
      (by_ - ay) * (by_ - ay) + (bz - az) * (bz - az)) hdtv hs hne
    simp only [velOf, pfSub, pfMul, pfAdd]
    rw [hsq]
    simp only [PyFloat.toReal]
    push_cast
    ring_nf

/-- Witness for C1: previous sample at the origin with ts 10, new sample at
x = 1 with ts 11. -/
theorem C1_velocity_formula_witness :
    nbVal (NB.float (.fin 10)) = some 10 ∧
    nbVal (NB.float (.fin 11)) = some 11 ∧ (10 : ℚ) < 11 ∧
    (∃ v : Vel,
      compute_velocity (some ⟨.fin 0, .fin 0, .fin 0, .float (.fin 10)⟩)
        (.fin 1) (.fin 0) (.fin 0) (.float (.fin 11)) (.float (.fin 12)) = some v ∧
      server_velocity (some ⟨.fin 0, .fin 0, .fin 0, .float (.fin 10)⟩)
        (.fin 1) (.fin 0) (.fin 0) (.float (.fin 11)) (.float (.fin 12)) = some v ∧
      pnVal v.dt = some (11 - 10) ∧
      v.vx = .fin ((1 - 0) / (11 - 10)) ∧
      v.vy = .fin ((0 - 0) / (11 - 10)) ∧
      v.vz = .fin ((0 - 0) / (11 - 10)) ∧
      v.speed.toReal =
        Real.sqrt ((((1 : ℚ) : ℝ) - ((0 : ℚ) : ℝ)) ^ 2 +
            (((0 : ℚ) : ℝ) - ((0 : ℚ) : ℝ)) ^ 2 +
            (((0 : ℚ) : ℝ) - ((0 : ℚ) : ℝ)) ^ 2) /
          (((11 : ℚ) : ℝ) - ((10 : ℚ) : ℝ))) :=
  ⟨rfl, rfl, by norm_num,
    C1_velocity_formula 0 0 0 1 0 0 (.float (.fin 10)) (.float (.fin 11))
      (.float (.fin 12)) 10 11 rfl rfl (by norm_num)⟩

/-- C2 (amended): both velocity estimators return absent without a previous
sample; the server-time fallback `dt = serverNow - previous.ts` applies only
when the current timestamp is STRICTLY below the previous one (at equality
the client-clock `dt = 0` is used and the estimate is absent); a substituted
`dt <= 0` yields absent; and an attached estimate never carries a
non-positive `dt`. -/
theorem C2_fallback_and_guard :
    (∀ px py pz ts fb,
       compute_velocity none px py pz ts fb = none ∧
       server_velocity none px py pz ts fb = none) ∧
    (∀ (l : LastPose) (px py pz : PyFloat) (ts fb : NB) (qt ql qf : ℚ),
       nbVal ts = some qt → nbVal l.ts = some ql → nbVal fb = some qf →
       qt < ql →
       pnVal (nbSub fb l.ts) = some (qf - ql) ∧
       compute_velocity (some l) px py pz ts fb =
         (if qf - ql ≤ 0 then none
          else some (velOf l px py pz (nbSub fb l.ts))) ∧
       server_velocity (some l) px py pz ts fb =
         (if qf - ql ≤ 0 then none
          else some (velOf l px py pz (nbSub fb l.ts)))) ∧
    (∀ (l : LastPose) (px py pz : PyFloat) (ts fb : NB) (qt ql : ℚ),
       nbVal ts = some qt → nbVal l.ts = some ql → qt = ql →
       compute_velocity (some l) px py pz ts fb = none ∧
       server_velocity (some l) px py pz ts fb = none) ∧
    (∀ last px py pz ts fb v,
       compute_velocity last px py pz ts fb = some v → pnLeZ v.dt = false) ∧
    (∀ last px py pz ts fb v,
       server_velocity last px py pz ts fb = some v → pnGtZ v.dt = true) := by
  refine ⟨fun px py pz ts fb => ⟨rfl, rfl⟩, ?_, ?_, ?_, ?_⟩
  · intro l px py pz ts fb qt ql qf hts hlts hfb hlt
    have hge : nbGe ts l.ts = false := by
      rw [nbGe_val hts hlts]
      simpa using hlt
    have hdu : dt_used l ts fb = nbSub fb l.ts := by
      simp [dt_used, hge]
    have hv := nbSub_val hfb hlts
    refine ⟨hv, ?_, ?_⟩
    · simp only [compute_velocity]
      rw [hdu, pnLeZ_val hv]
      by_cases h : qf - ql ≤ 0 <;> simp [h]
    · simp only [server_velocity]
      rw [hdu, pnGtZ_val hv]
      by_cases h : qf - ql ≤ 0
      · simp [h, not_lt.mpr h]
      · simp [h, lt_of_not_le h]
  · intro l px py pz ts fb qt ql hts hlts heq
    subst heq
    have hge : nbGe ts l.ts = true := by
      rw [nbGe_val hts hlts]
      simp
    have hdu : dt_used l ts fb = nbSub ts l.ts := by
      simp [dt_used, hge]
    have hv : pnVal (nbSub ts l.ts) = some 0 := by
      simpa using nbSub_val hts hlts
    constructor
    · simp only [compute_velocity]
      rw [hdu, pnLeZ_val hv]
      simp
    · simp only [server_velocity]
      rw [hdu, pnGtZ_val hv]
      simp
  · intro last px py pz ts fb v h
    cases last with
    | none => simp [compute_velocity] at h
    | some l =>
        simp only [compute_velocity] at h
        by_cases hc : pnLeZ (dt_used l ts fb) = true
        · rw [if_pos hc] at h
          exact absurd h (by simp)
        · rw [if_neg hc] at h
          have hv : v = velOf l px py pz (dt_used l ts fb) :=
            (Option.some.injEq _ _ ▸ h).symm
          rw [hv]
          simpa [velOf] using hc
  · intro last px py pz ts fb v h
    cases last with
    | none => simp [server_velocity] at h
    | some l =>
        simp only [server_velocity] at h
        by_cases hc : pnGtZ (dt_used l ts fb) = true
        · rw [if_pos hc] at h
          have hv : v = velOf l px py pz (dt_used l ts fb) :=
            (Option.some.injEq _ _ ▸ h).symm
          rw [hv]
          simpa [velOf] using hc
        · rw [if_neg hc] at h
          exact absurd h (by simp)

/-- Witness for C2, exercising the strict-regression fallback: previous ts
10, current ts 5, serverNow 12, so the substituted dt is 12 - 10 = 2 > 0. -/
theorem C2_fallback_and_guard_witness :
    nbVal (NB.float (.fin 5)) = some 5 ∧
    nbVal (NB.float (.fin 10)) = some 10 ∧
    nbVal (NB.float (.fin 12)) = some 12 ∧ (5 : ℚ) < 10 ∧
    (pnVal (nbSub (.float (.fin 12)) (NB.float (.fin 10))) = some (12 - 10) ∧
     compute_velocity (some ⟨.fin 0, .fin 0, .fin 0, .float (.fin 10)⟩)
       (.fin 1) (.fin 0) (.fin 0) (.float (.fin 5)) (.float (.fin 12)) =
       (if (12 : ℚ) - 10 ≤ 0 then none
        else some (velOf ⟨.fin 0, .fin 0, .fin 0, .float (.fin 10)⟩
          (.fin 1) (.fin 0) (.fin 0) (nbSub (.float (.fin 12)) (NB.float (.fin 10))))) ∧
     server_velocity (some ⟨.fin 0, .fin 0, .fin 0, .float (.fin 10)⟩)
       (.fin 1) (.fin 0) (.fin 0) (.float (.fin 5)) (.float (.fin 12)) =
       (if (12 : ℚ) - 10 ≤ 0 then none
        else some (velOf ⟨.fin 0, .fin 0, .fin 0, .float (.fin 10)⟩
          (.fin 1) (.fin 0) (.fin 0) (nbSub (.float (.fin 12)) (NB.float (.fin 10)))))) :=
  ⟨rfl, rfl, rfl, by norm_num,
    C2_fallback_and_guard.2.1 ⟨.fin 0, .fin 0, .fin 0, .float (.fin 10)⟩
      (.fin 1) (.fin 0) (.fin 0) (.float (.fin 5)) (.float (.fin 12)) 5 10 12
      rfl rfl rfl (by norm_num)⟩

/-- Counterexample to C2 as stated: with previous ts = current ts = 10 and
serverNow = 11, the claim's "timestamp less than OR EQUAL" fallback mandates
dt = 11 - 10 = 1 > 0 and an attached estimate; both implementations use the
client-clock dt = 0 at equality and return absent. -/
theorem C2_equal_ts_counterexample :
    compute_velocity (some ⟨.fin 0, .fin 0, .fin 0, .float (.fin 10)⟩)
      (.fin 3) (.fin 0) (.fin 0) (.float (.fin 10)) (.float (.fin 11)) = none ∧
    server_velocity (some ⟨.fin 0, .fin 0, .fin 0, .float (.fin 10)⟩)
      (.fin 3) (.fin 0) (.fin 0) (.float (.fin 10)) (.float (.fin 11)) = none ∧
    (10 : ℚ) ≤ 10 ∧ (0 : ℚ) < 11 - 10 :=
  ⟨by with_unfolding_all rfl, by with_unfolding_all rfl, le_refl 10, by norm_num⟩

theorem serverDecide_malformed (st : Option LastPose) (clk : ℚ) :
    serverDecide st clk .malformed = .dropLog := rfl

theorem allDecide_malformed (st : Option LastPose) (clk clk2 : ℚ) :
    allDecide st clk clk2 .malformed = .dropLog := rfl

theorem serverDecide_nonobj {j : J} (st : Option LastPose) (clk : ℚ)
    (h : jIsObj j = false) : serverDecide st clk (.payload j) = .dropSilent := by
  cases j <;> simp_all [jIsObj, serverDecide]

theorem allDecide_nonobj {j : J} (st : Option LastPose) (clk clk2 : ℚ)
    (h : jIsObj j = false) : allDecide st clk clk2 (.payload j) = .dropSilent := by
  cases j <;> simp_all [jIsObj, allDecide]

theorem serverDecide_accept_inv {st : Option LastPose} {clk : ℚ} {j : J}
    {s : Sample} {u : J}
    (h : serverDecide st clk (.payload j) = .accept s u) :
    ∃ px py pz rx ry rz rw,
      extract7 ((jGet j "position").getD .null) ((jGet j "rotation").getD .null) =
        some (px, py, pz, rx, ry, rz, rw) ∧
      jTruthy ((jGet j "position").getD .null) = true ∧
      jTruthy ((jGet j "rotation").getD .null) = true ∧
      s = ⟨(jGet j "clientId").getD (.str "unknown"), server_ts j clk,
           px, py, pz, rx, ry, rz, rw⟩ ∧
      u = updateJ ((jGet j "clientId").getD (.str "unknown")) (server_ts j clk)
            px py pz rx ry rz rw
            (server_velocity st px py pz (server_ts j clk) (.float (.fin clk))) := by
  cases j with
  | obj fs =>
      simp only [serverDecide] at h
      by_cases hpr : (!jTruthy ((jGet (J.obj fs) "position").getD .null) ||
          !jTruthy ((jGet (J.obj fs) "rotation").getD .null)) = true
      · rw [if_pos hpr] at h
        exact absurd h (by simp)
      · rw [if_neg hpr] at h
        simp only [Bool.or_eq_true, Bool.not_eq_true', not_or,
          Bool.not_eq_false] at hpr
        rcases hext : extract7 ((jGet (J.obj fs) "position").getD .null)
            ((jGet (J.obj fs) "rotation").getD .null) with _ |
            ⟨px, py, pz, rx, ry, rz, rw⟩
        · rw [hext] at h
          exact absurd h (by simp)
        · rw [hext] at h
          simp only [Decision.accept.injEq] at h
          exact ⟨px, py, pz, rx, ry, rz, rw, rfl, hpr.1, hpr.2,
            h.1.symm, h.2.symm⟩
  | null => exact absurd h (by simp [serverDecide])
  | bool b => exact absurd h (by simp [serverDecide])
  | num v => exact absurd h (by simp [serverDecide])
  | str s' => exact absurd h (by simp [serverDecide])
  | arr xs => exact absurd h (by simp [serverDecide])

theorem allDecide_accept_inv {st : Option LastPose} {clk clk2 : ℚ} {j : J}
    {s : Sample} {u : J}
    (h : allDecide st clk clk2 (.payload j) = .accept s u) :
    ∃ px py pz rx ry rz rw,
      extract7 ((jGet j "position").getD .null) ((jGet j "rotation").getD .null) =
        some (px, py, pz, rx, ry, rz, rw) ∧
      jIsObj ((jGet j "position").getD .null) = true ∧
      jIsObj ((jGet j "rotation").getD .null) = true ∧
      s = ⟨(jGet j "clientId").getD (.str "unknown"), .float (all_ts j clk),
           px, py, pz, rx, ry, rz, rw⟩ ∧
      u = updateJ ((jGet j "clientId").getD (.str "unknown"))
            (.float (all_ts j clk)) px py pz rx ry rz rw
            (compute_velocity st px py pz (.float (all_ts j clk))
              (.float (.fin clk2))) := by
  cases j with
  | obj fs =>
      simp only [allDecide] at h
      by_cases hpr : (!(jIsObj ((jGet (J.obj fs) "position").getD .null) &&
          jIsObj ((jGet (J.obj fs) "rotation").getD .null))) = true
      · rw [if_pos hpr] at h
        exact absurd h (by simp)
      · rw [if_neg hpr] at h
        simp only [Bool.not_eq_true', Bool.and_eq_false_iff] at hpr
        have hpr2 : jIsObj ((jGet (J.obj fs) "position").getD .null) = true ∧
            jIsObj ((jGet (J.obj fs) "rotation").getD .null) = true := by
          rcases Bool.eq_false_or_eq_true
            (jIsObj ((jGet (J.obj fs) "position").getD .null)) with h1 | h1 <;>
          rcases Bool.eq_false_or_eq_true
            (jIsObj ((jGet (J.obj fs) "rotation").getD .null)) with h2 | h2 <;>
          simp_all
        rcases hext : extract7 ((jGet (J.obj fs) "position").getD .null)
            ((jGet (J.obj fs) "rotation").getD .null) with _ |
            ⟨px, py, pz, rx, ry, rz, rw⟩
        · rw [hext] at h
          exact absurd h (by simp)
        · rw [hext] at h
          simp only [Decision.accept.injEq] at h
          exact ⟨px, py, pz, rx, ry, rz, rw, rfl, hpr2.1, hpr2.2,
            h.1.symm, h.2.symm⟩
  | null => exact absurd h (by simp [allDecide])
  | bool b => exact absurd h (by simp [allDecide])
  | num v => exact absurd h (by simp [allDecide])
  | str s' => exact absurd h (by simp [allDecide])
  | arr xs => exact absurd h (by simp [allDecide])

theorem serverDecide_silent (st : Option LastPose) (clk : ℚ) {j : J}
    (hobj : jIsObj j = true)
    (h : extract7 ((jGet j "position").getD .null)
           ((jGet j "rotation").getD .null) = none ∨
         jTruthy ((jGet j "position").getD .null) = false ∨
         jTruthy ((jGet j "rotation").getD .null) = false) :
    serverDecide st clk (.payload j) = .dropSilent := by
  cases j with
  | obj fs =>
      simp only [serverDecide]
      by_cases hpr : (!jTruthy ((jGet (J.obj fs) "position").getD .null) ||
          !jTruthy ((jGet (J.obj fs) "rotation").getD .null)) = true
      · rw [if_pos hpr]
      · rw [if_neg hpr]
        simp only [Bool.or_eq_true, Bool.not_eq_true', not_or,
          Bool.not_eq_false] at hpr
        have hext : extract7 ((jGet (J.obj fs) "position").getD .null)
            ((jGet (J.obj fs) "rotation").getD .null) = none := by
          rcases h with h | h | h
          · exact h
          · rw [hpr.1] at h
            exact absurd h (by simp)
          · rw [hpr.2] at h
            exact absurd h (by simp)
        rw [hext]
  | null => simp [jIsObj] at hobj
  | bool b => simp [jIsObj] at hobj
  | num v => simp [jIsObj] at hobj
  | str s' => simp [jIsObj] at hobj
  | arr xs => simp [jIsObj] at hobj

theorem allDecide_silent (st : Option LastPose) (clk clk2 : ℚ) {j : J}
    (hobj : jIsObj j = true)
    (h : extract7 ((jGet j "position").getD .null)
           ((jGet j "rotation").getD .null) = none ∨
         jIsObj ((jGet j "position").getD .null) = false ∨
         jIsObj ((jGet j "rotation").getD .null) = false) :
    allDecide st clk clk2 (.payload j) = .dropSilent := by
  cases j with
  | obj fs =>
      simp only [allDecide]
      by_cases hpr : (!(jIsObj ((jGet (J.obj fs) "position").getD .null) &&
          jIsObj ((jGet (J.obj fs) "rotation").getD .null))) = true
      · rw [if_pos hpr]
      · rw [if_neg hpr]
        simp only [Bool.not_eq_true', Bool.and_eq_false_iff] at hpr
        have hok : jIsObj ((jGet (J.obj fs) "position").getD .null) = true ∧
            jIsObj ((jGet (J.obj fs) "rotation").getD .null) = true := by
          rcases Bool.eq_false_or_eq_true
            (jIsObj ((jGet (J.obj fs) "position").getD .null)) with h1 | h1 <;>
          rcases Bool.eq_false_or_eq_true
            (jIsObj ((jGet (J.obj fs) "rotation").getD .null)) with h2 | h2 <;>
          simp_all
        have hext : extract7 ((jGet (J.obj fs) "position").getD .null)
            ((jGet (J.obj fs) "rotation").getD .null) = none := by
          rcases h with h | h | h
          · exact h
          · rw [hok.1] at h
            exact absurd h (by simp)
          · rw [hok.2] at h
            exact absurd h (by simp)
        rw [hext]
  | null => simp [jIsObj] at hobj
  | bool b => simp [jIsObj] at hobj
  | num v => simp [jIsObj] at hobj
  | str s' => simp [jIsObj] at hobj
  | arr xs => simp [jIsObj] at hobj

theorem extract7_some_iff {pos rot : J} {px py pz rx ry rz rw : PyFloat} :
    extract7 pos rot = some (px, py, pz, rx, ry, rz, rw) ↔
      fl pos "x" = some px ∧ fl pos "y" = some py ∧ fl pos "z" = some pz ∧
      fl rot "x" = some rx ∧ fl rot "y" = some ry ∧ fl rot "z" = some rz ∧
      fl rot "w" = some rw := by
  constructor
  · intro h
    simp only [extract7, bind, Option.bind_eq_some, pure, Option.some.injEq] at h
    obtain ⟨a, ha, b, hb, c, hc, d, hd, e, he, f, hf, g, hg, h⟩ := h
    simp only [Prod.mk.injEq] at h
    obtain ⟨rfl, rfl, rfl, rfl, rfl, rfl, rfl⟩ := h
    exact ⟨ha, hb, hc, hd, he, hf, hg⟩
  · rintro ⟨hx, hy, hz, h1, h2, h3, h4⟩
    simp [extract7, bind, hx, hy, hz, h1, h2, h3, h4, pure]

/-- The sample an accepted decision carries, if any. -/
def Decision.sampleOf : Decision → Option Sample
  | .accept s _ => some s
  | _ => none

/-- C3 (amended): both handlers accept a message only if every one of
`position.{x,y,z}` and `rotation.{x,y,z,w}` is convertible by Python
`float()` (finiteness is NOT checked: non-finite values convert and are
accepted); and a message whose structural checks pass but whose coordinate
extraction fails is silently dropped, with no events and no change to the
stored last sample. -/
theorem C3_conversion_gate :
    (∀ st clk (j : J) (s : Sample) (u : J),
       serverDecide st clk (.payload j) = .accept s u →
       fl ((jGet j "position").getD .null) "x" = some s.px ∧
       fl ((jGet j "position").getD .null) "y" = some s.py ∧
       fl ((jGet j "position").getD .null) "z" = some s.pz ∧
       fl ((jGet j "rotation").getD .null) "x" = some s.rx ∧
       fl ((jGet j "rotation").getD .null) "y" = some s.ry ∧
       fl ((jGet j "rotation").getD .null) "z" = some s.rz ∧
       fl ((jGet j "rotation").getD .null) "w" = some s.rw) ∧
    (∀ st clk clk2 (j : J) (s : Sample) (u : J),
       allDecide st clk clk2 (.payload j) = .accept s u →
       fl ((jGet j "position").getD .null) "x" = some s.px ∧
       fl ((jGet j "position").getD .null) "y" = some s.py ∧
       fl ((jGet j "position").getD .null) "z" = some s.pz ∧
       fl ((jGet j "rotation").getD .null) "x" = some s.rx ∧
       fl ((jGet j "rotation").getD .null) "y" = some s.ry ∧
       fl ((jGet j "rotation").getD .null) "z" = some s.rz ∧
       fl ((jGet j "rotation").getD .null) "w" = some s.rw) ∧
    (∀ st clients clk (j : J), jIsObj j = true →
       extract7 ((jGet j "position").getD .null)
         ((jGet j "rotation").getD .null) = none →
       serverStep st clients clk (.payload j) = (st, [])) ∧
    (∀ st clients clk clk2 (j : J), jIsObj j = true →
       extract7 ((jGet j "position").getD .null)
         ((jGet j "rotation").getD .null) = none →
       allStep st clients clk clk2 (.payload j) = (st, [])) := by
  refine ⟨?_, ?_, ?_, ?_⟩
  · intro st clk j s u h
    obtain ⟨px, py, pz, rx, ry, rz, rw, hext, _, _, hs, _⟩ :=
      serverDecide_accept_inv h
    subst hs
    exact extract7_some_iff.mp hext
  · intro st clk clk2 j s u h
    obtain ⟨px, py, pz, rx, ry, rz, rw, hext, _, _, hs, _⟩ :=
      allDecide_accept_inv h
    subst hs
    exact extract7_some_iff.mp hext
  · intro st clients clk j hobj hext
    simp [serverStep, serverDecide_silent st clk hobj (Or.inl hext)]
  · intro st clients clk clk2 j hobj hext
    simp [allStep, allDecide_silent st clk clk2 hobj (Or.inl hext)]

/-- A message whose `position.x` is the JSON literal `Infinity` (accepted by
Python's `json.loads`). -/
def msgInf : J :=
  .obj [("clientId", .str "p"), ("ts", .num (.float (.fin 7))),
        ("position", .obj [("x", .num (.float .inf)), ("y", .num (.int 0)),
          ("z", .num (.int 0))]),
        ("rotation", rotObjJ (.fin 0) (.fin 0) (.fin 0) (.fin 1))]

/-- Counterexample to C3 as stated: a message whose `position.x` is the
non-finite value `Infinity` is ACCEPTED by both variants (the stored sample
carries `inf`), because `float(...)` succeeds on non-finite values and no
finiteness check exists; the claim says such a message is dropped. -/
theorem C3_nonfinite_accepted_counterexample :
    (serverDecide none 3 (.payload msgInf)).sampleOf.map Sample.px =
      some PyFloat.inf ∧
    (allDecide none 3 3 (.payload msgInf)).sampleOf.map Sample.px =
      some PyFloat.inf ∧
    pyFloat (.num (.float .inf)) = some PyFloat.inf :=
  ⟨by with_unfolding_all rfl, by with_unfolding_all rfl, rfl⟩

/-- The sample and update of the walkthrough message `msgA` when accepted
with no prior state. -/
def sampleA : Sample :=
  ⟨.str "a", .float (.fin 1000), .fin 0, .fin 0, .fin 0, .fin 0, .fin 0,
   .fin 0, .fin 1⟩

/-- The broadcast update for `msgA` accepted with no prior state. -/
def updA : J :=
  updateJ (.str "a") (.float (.fin 1000)) (.fin 0) (.fin 0) (.fin 0) (.fin 0)
    (.fin 0) (.fin 0) (.fin 1) none

/-- Witness for C3 on the concrete accepted message `msgA`. -/
theorem C3_conversion_gate_witness :
    serverDecide none 5 (.payload msgA) = .accept sampleA updA ∧
    (fl ((jGet msgA "position").getD .null) "x" = some sampleA.px ∧
     fl ((jGet msgA "position").getD .null) "y" = some sampleA.py ∧
     fl ((jGet msgA "position").getD .null) "z" = some sampleA.pz ∧
     fl ((jGet msgA "rotation").getD .null) "x" = some sampleA.rx ∧
     fl ((jGet msgA "rotation").getD .null) "y" = some sampleA.ry ∧
     fl ((jGet msgA "rotation").getD .null) "z" = some sampleA.rz ∧
     fl ((jGet msgA "rotation").getD .null) "w" = some sampleA.rw) :=
  ⟨by with_unfolding_all rfl,
   C3_conversion_gate.1 none 5 msgA sampleA updA (by with_unfolding_all rfl)⟩

/-- C5: every rejected inbound message leaves the stored last-sample state
unchanged and produces no broadcast (the handler `continue`s, keeping the
connection open; closing happens only on transport signals, which are not
message processing): malformed JSON yields exactly the logged diagnostic;
non-mapping top-level values, missing/falsy or non-mapping
`position`/`rotation`, and coordinate conversion failures are dropped with
no event at all. -/
theorem C5_rejection_no_effects :
    (∀ st clients clk,
       serverStep st clients clk .malformed = (st, [Ev.logInvalid])) ∧
    (∀ st clients clk clk2,
       allStep st clients clk clk2 .malformed = (st, [Ev.logInvalid])) ∧
    (∀ st clients clk (j : J), jIsObj j = false →
       serverStep st clients clk (.payload j) = (st, [])) ∧
    (∀ st clients clk clk2 (j : J), jIsObj j = false →
       allStep st clients clk clk2 (.payload j) = (st, [])) ∧
    (∀ st clients clk (j : J), jIsObj j = true →
       (extract7 ((jGet j "position").getD .null)
          ((jGet j "rotation").getD .null) = none ∨
        jTruthy ((jGet j "position").getD .null) = false ∨
        jTruthy ((jGet j "rotation").getD .null) = false) →
       serverStep st clients clk (.payload j) = (st, [])) ∧
    (∀ st clients clk clk2 (j : J), jIsObj j = true →
       (extract7 ((jGet j "position").getD .null)
          ((jGet j "rotation").getD .null) = none ∨
        jIsObj ((jGet j "position").getD .null) = false ∨
        jIsObj ((jGet j "rotation").getD .null) = false) →
       allStep st clients clk clk2 (.payload j) = (st, [])) := by
  refine ⟨?_, ?_, ?_, ?_, ?_, ?_⟩
  · intro st clients clk
    simp [serverStep, serverDecide_malformed]
  · intro st clients clk clk2
    simp [allStep, allDecide_malformed]
  · intro st clients clk j h
    simp [serverStep, serverDecide_nonobj st clk h]
  · intro st clients clk clk2 j h
    simp [allStep, allDecide_nonobj st clk clk2 h]
  · intro st clients clk j hobj h
    simp [serverStep, serverDecide_silent st clk hobj h]
  · intro st clients clk clk2 j hobj h
    simp [allStep, allDecide_silent st clk clk2 hobj h]

/-- A message with a `position` but no `rotation` key. -/
def msgNoRot : J :=
  .obj [("clientId", .str "a"), ("position", posObjJ (.fin 1) (.fin 2) (.fin 3))]

/-- Witness for C5: a malformed message is logged with no state change, and
the concrete message missing `rotation` is dropped silently by both
variants with no broadcast and no state change. -/
theorem C5_rejection_no_effects_witness :
    serverStep none [⟨1, true, true⟩] 4 .malformed = (none, [Ev.logInvalid]) ∧
    jIsObj msgNoRot = true ∧
    jTruthy ((jGet msgNoRot "rotation").getD .null) = false ∧
    serverStep none [⟨1, true, true⟩] 4 (.payload msgNoRot) = (none, []) ∧
    allStep none [⟨1, true, true⟩] 4 4 (.payload msgNoRot) = (none, []) :=
  ⟨C5_rejection_no_effects.1 none [⟨1, true, true⟩] 4, rfl, rfl,
   C5_rejection_no_effects.2.2.2.2.1 none [⟨1, true, true⟩] 4 msgNoRot rfl
     (Or.inr (Or.inr rfl)),
   C5_rejection_no_effects.2.2.2.2.2 none [⟨1, true, true⟩] 4 4 msgNoRot rfl
     (Or.inr (Or.inr rfl))⟩

theorem updateJ_clientId (cid : J) (ts : NB) (px py pz rx ry rz rw : PyFloat)
    (vel : Option Vel) :
    jGet (updateJ cid ts px py pz rx ry rz rw vel) "clientId" = some cid := by
  simp [updateJ, jGet, lookupField]

/-- C10: the parser never validates the type of `clientId`: whatever JSON
value sits under the key (string, number, null, boolean, array or object)
becomes the accepted sample's `clientId` and is embedded verbatim in the
broadcast update; only complete absence of the key yields the default
string `"unknown"` (a present `null` is kept as `null`, since Python's
`dict.get` default applies only to missing keys). -/
theorem C10_clientId_verbatim :
    (∀ st clk (j : J) (s : Sample) (u : J),
       serverDecide st clk (.payload j) = .accept s u →
       s.cid = (jGet j "clientId").getD (.str "unknown") ∧
       jGet u "clientId" = some ((jGet j "clientId").getD (.str "unknown"))) ∧
    (∀ st clk clk2 (j : J) (s : Sample) (u : J),
       allDecide st clk clk2 (.payload j) = .accept s u →
       s.cid = (jGet j "clientId").getD (.str "unknown") ∧
       jGet u "clientId" = some ((jGet j "clientId").getD (.str "unknown"))) := by
  constructor
  · intro st clk j s u h
    obtain ⟨px, py, pz, rx, ry, rz, rw, _, _, _, hs, hu⟩ :=
      serverDecide_accept_inv h
    subst hs hu
    exact ⟨rfl, updateJ_clientId ..⟩
  · intro st clk clk2 j s u h
    obtain ⟨px, py, pz, rx, ry, rz, rw, _, _, _, hs, hu⟩ :=
      allDecide_accept_inv h
    subst hs hu
    exact ⟨rfl, updateJ_clientId ..⟩

/-- A message whose `clientId` is a JSON array (no type validation applies),
with no `ts` (wall clock 2 substituted). -/
def msgCidArr : J :=
  .obj [("clientId", .arr [.num (.int 1), .null]),
        ("position", posObjJ (.fin 4) (.fin 5) (.fin 6)),
        ("rotation", rotObjJ (.fin 0) (.fin 0) (.fin 0) (.fin 1))]

/-- The sample accepted from `msgCidArr` with no prior state at clock 2. -/
def sampleCid : Sample :=
  ⟨.arr [.num (.int 1), .null], .float (.fin 2), .fin 4, .fin 5, .fin 6,
   .fin 0, .fin 0, .fin 0, .fin 1⟩

/-- The update broadcast for `msgCidArr` accepted with no prior state. -/
def updCid : J :=
  updateJ (.arr [.num (.int 1), .null]) (.float (.fin 2)) (.fin 4) (.fin 5)
    (.fin 6) (.fin 0) (.fin 0) (.fin 0) (.fin 1) none

/-- Witness for C10: an array-valued `clientId` is carried verbatim. -/
theorem C10_clientId_verbatim_witness :
    serverDecide none 2 (.payload msgCidArr) = .accept sampleCid updCid ∧
    (sampleCid.cid = (jGet msgCidArr "clientId").getD (.str "unknown") ∧
     jGet updCid "clientId" =
       some ((jGet msgCidArr "clientId").getD (.str "unknown"))) :=
  ⟨by with_unfolding_all rfl,
   C10_clientId_verbatim.1 none 2 msgCidArr sampleCid updCid
     (by with_unfolding_all rfl)⟩

theorem nbGtQ_val {a : NB} {q c : ℚ} (h : nbVal a = some q) :
    nbGtQ a c = decide (c < q) := by
  unfold nbGtQ
  rw [nbVal_some h]
  rfl

/-- C7 (amended): for every accepted message, the sample timestamp obeys the
millisecond heuristic over the values that pass
`isinstance(ts, (int, float))` — which includes BOOLEANS (Python `bool` is
an `int`: `true` counts as 1, `false` as 0, and is NOT replaced by the wall
clock): a finite raw value exceeding 1e12 is divided by 1000 (yielding a
float in both variants); a finite raw value not exceeding 1e12 is kept —
with its exact type by the raw-socket variant and coerced by `float()` in
the HTTP variant; a missing `ts` key or a value that is neither number nor
boolean is replaced by the wall clock at receipt. -/
theorem C7_ts_normalization :
    (∀ st clk (j : J) (s : Sample) (u : J) (nb : NB) (q : ℚ),
       serverDecide st clk (.payload j) = .accept s u →
       (jGet j "ts").bind jAsNB = some nb → nbVal nb = some q →
       ((10 ^ 12 : ℚ) < q → s.ts = .float (.fin (q / 1000))) ∧
       (¬ (10 ^ 12 : ℚ) < q → s.ts = nb)) ∧
    (∀ st clk clk2 (j : J) (s : Sample) (u : J) (nb : NB) (q : ℚ),
       allDecide st clk clk2 (.payload j) = .accept s u →
       (jGet j "ts").bind jAsNB = some nb → nbVal nb = some q →
       ((10 ^ 12 : ℚ) < q → s.ts = .float (.fin (q / 1000))) ∧
       (¬ (10 ^ 12 : ℚ) < q → s.ts = .float nb.toF)) ∧
    (∀ st clk (j : J) (s : Sample) (u : J),
       serverDecide st clk (.payload j) = .accept s u →
       (jGet j "ts").bind jAsNB = none → s.ts = .float (.fin clk)) ∧
    (∀ st clk clk2 (j : J) (s : Sample) (u : J),
       allDecide st clk clk2 (.payload j) = .accept s u →
       (jGet j "ts").bind jAsNB = none → s.ts = .float (.fin clk)) := by
  have hdiv : ∀ (nb : NB) (q : ℚ), nbVal nb = some q →
      pfDivF nb.toF (.fin 1000) = .fin (q / 1000) := by
    intro nb q h
    rcases nbVal_cases h with ⟨n, rfl, hn⟩ | ⟨b, rfl, hb⟩ | rfl
    · subst hn
      simp [NB.toF, pfDivF]
    · subst hb
      cases b <;> simp [NB.toF, pfDivF]
    · simp [NB.toF, pfDivF]
  refine ⟨?_, ?_, ?_, ?_⟩
  · intro st clk j s u nb q h hts hq
    obtain ⟨px, py, pz, rx, ry, rz, rw, _, _, _, hs, _⟩ :=
      serverDecide_accept_inv h
    subst hs
    simp only [server_ts, hts]
    rw [nbGtQ_val hq]
    constructor
    · intro hgt
      rw [if_pos (by simpa using hgt), hdiv nb q hq]
    · intro hle
      rw [if_neg (by simpa using hle)]
  · intro st clk clk2 j s u nb q h hts hq
    obtain ⟨px, py, pz, rx, ry, rz, rw, _, _, _, hs, _⟩ :=
      allDecide_accept_inv h
    subst hs
    simp only [all_ts, hts]
    rw [nbGtQ_val hq]
    constructor
    · intro hgt
      rw [if_pos (by simpa using hgt), hdiv nb q hq]
    · intro hle
      rw [if_neg (by simpa using hle)]
  · intro st clk j s u h hts
    obtain ⟨px, py, pz, rx, ry, rz, rw, _, _, _, hs, _⟩ :=
      serverDecide_accept_inv h
    subst hs
    simp only [server_ts, hts]
  · intro st clk clk2 j s u h hts
    obtain ⟨px, py, pz, rx, ry, rz, rw, _, _, _, hs, _⟩ :=
      allDecide_accept_inv h
    subst hs
    simp only [all_ts, hts]

/-- A message with a millisecond-epoch integer timestamp. -/
def msgMs : J :=
  .obj [("ts", .num (.int 1609459200000)),
        ("position", posObjJ (.fin 1) (.fin 0) (.fin 0)),
        ("rotation", rotObjJ (.fin 0) (.fin 0) (.fin 0) (.fin 1))]

/-- The sample accepted from `msgMs` (timestamp divided down to seconds,
`clientId` defaulted). -/
def sampleMs : Sample :=
  ⟨.str "unknown", .float (.fin 1609459200), .fin 1, .fin 0, .fin 0,
   .fin 0, .fin 0, .fin 0, .fin 1⟩

/-- The update broadcast for `msgMs` accepted with no prior state. -/
def updMs : J :=
  updateJ (.str "unknown") (.float (.fin 1609459200)) (.fin 1) (.fin 0)
    (.fin 0) (.fin 0) (.fin 0) (.fin 0) (.fin 1) none

/-- Witness for C7: a raw `ts` of 1609459200000 (epoch milliseconds,
exceeding 1e12) is normalized to 1609459200 seconds. -/
theorem C7_ts_normalization_witness :
    serverDecide none 9 (.payload msgMs) = .accept sampleMs updMs ∧
    (jGet msgMs "ts").bind jAsNB = some (.int 1609459200000) ∧
    nbVal (NB.int 1609459200000) = some 1609459200000 ∧
    (((10 ^ 12 : ℚ) < 1609459200000 →
        sampleMs.ts = .float (.fin (1609459200000 / 1000))) ∧
     (¬ (10 ^ 12 : ℚ) < 1609459200000 →
        sampleMs.ts = .int 1609459200000)) :=
  ⟨by with_unfolding_all rfl, rfl, rfl,
   C7_ts_normalization.1 none 9 msgMs sampleMs updMs (.int 1609459200000)
     1609459200000 (by with_unfolding_all rfl) rfl rfl⟩

/-- A message whose `ts` is the JSON boolean `true`. -/
def msgTsBool : J :=
  .obj [("ts", .bool true),
        ("position", posObjJ (.fin 1) (.fin 0) (.fin 0)),
        ("rotation", rotObjJ (.fin 0) (.fin 0) (.fin 0) (.fin 1))]

/-- Counterexample to C7 as stated: `"ts": true` is not numeric (it is a
JSON boolean), yet with wall clock 5 neither variant substitutes the
wall-clock time: `isinstance(True, (int, float))` holds in Python, so the
HTTP variant keeps `float(True) = 1.0` and the raw-socket variant keeps the
boolean itself. -/
theorem C7_boolean_ts_counterexample :
    (allDecide none 5 5 (.payload msgTsBool)).sampleOf.map Sample.ts =
      some (.float (.fin 1)) ∧
    (serverDecide none 5 (.payload msgTsBool)).sampleOf.map Sample.ts =
      some (.bool true) ∧
    NB.float (.fin 1) ≠ .float (.fin 5) ∧ NB.bool true ≠ .float (.fin 5) :=
  ⟨by with_unfolding_all rfl, by with_unfolding_all rfl,
   by with_unfolding_all decide, by with_unfolding_all decide⟩

theorem broadcast_json_mem {clients : List Conn} {u : J} {c : Conn}
    (hmem : c ∈ clients) (hopen : c.isOpen = true) :
    (c.sendOk = true → Ev.sent c.cid (dumpsServer u) ∈ broadcast_json clients u) ∧
    (c.sendOk = false → Ev.sendErr c.cid ∈ broadcast_json clients u) := by
  constructor
  · intro hok
    simp [broadcast_json]
    exact ⟨c, ⟨hmem, hopen⟩, by simp [safe_send, hok]⟩
  · intro hko
    simp [broadcast_json]
    exact ⟨c, ⟨hmem, hopen⟩, by simp [safe_send, hko]⟩

theorem broadcast_all_mem {clients : List Conn} {u : J} {c : Conn}
    (hmem : c ∈ clients) (hopen : c.isOpen = true) :
    (c.sendOk = true → Ev.sent c.cid (pretty u) ∈ broadcast_all clients u) ∧
    (c.sendOk = false → Ev.sendErr c.cid ∈ broadcast_all clients u) := by
  constructor
  · intro hok
    simp [broadcast_all]
    exact ⟨c, ⟨hmem, hopen⟩, by simp [all_safe_send, hopen, hok]⟩
  · intro hko
    simp [broadcast_all]
    exact ⟨c, ⟨hmem, hopen⟩, by simp [all_safe_send, hopen, hko]⟩

/-- C4: broadcast delivery is attempted independently per connection, for
both variants: every open connection in the snapshot receives the payload if
its send succeeds, and a failing send is caught and logged with that
connection's identity — in either case independently of every other
connection's state, and the broadcast (a total function) completes with an
outcome recorded for every attempt; no outcome ever removes or alters
another connection. -/
theorem C4_delivery_isolation :
    (∀ (clients : List Conn) (u : J) (c : Conn), c ∈ clients →
       c.isOpen = true →
       (c.sendOk = true → Ev.sent c.cid (dumpsServer u) ∈ broadcast_json clients u) ∧
       (c.sendOk = false → Ev.sendErr c.cid ∈ broadcast_json clients u)) ∧
    (∀ (clients : List Conn) (u : J) (c : Conn), c ∈ clients →
       c.isOpen = true →
       (c.sendOk = true → Ev.sent c.cid (pretty u) ∈ broadcast_all clients u) ∧
       (c.sendOk = false → Ev.sendErr c.cid ∈ broadcast_all clients u)) :=
  ⟨fun _ _ _ hmem hopen => broadcast_json_mem hmem hopen,
   fun _ _ _ hmem hopen => broadcast_all_mem hmem hopen⟩

/-- The spec's three-connection scenario: connection 2's send fails. -/
def threeConns : List Conn := [⟨1, true, true⟩, ⟨2, true, false⟩, ⟨3, true, true⟩]

/-- Witness for C4: with three open connections of which number 2 fails,
connections 1 and 3 still receive the payload and the failure of 2 is
logged, in both variants. -/
theorem C4_delivery_isolation_witness :
    ((⟨1, true, true⟩ : Conn) ∈ threeConns ∧
     Ev.sent 1 (dumpsServer updA) ∈ broadcast_json threeConns updA) ∧
    ((⟨3, true, true⟩ : Conn) ∈ threeConns ∧
     Ev.sent 3 (dumpsServer updA) ∈ broadcast_json threeConns updA) ∧
    (Ev.sendErr 2 ∈ broadcast_json threeConns updA) ∧
    (Ev.sent 1 (pretty updA) ∈ broadcast_all threeConns updA ∧
     Ev.sent 3 (pretty updA) ∈ broadcast_all threeConns updA ∧
     Ev.sendErr 2 ∈ broadcast_all threeConns updA) :=
  ⟨⟨by simp [threeConns],
    ((C4_delivery_isolation.1 threeConns updA ⟨1, true, true⟩
      (by simp [threeConns]) rfl).1 rfl)⟩,
   ⟨by simp [threeConns],
    ((C4_delivery_isolation.1 threeConns updA ⟨3, true, true⟩
      (by simp [threeConns]) rfl).1 rfl)⟩,
   ((C4_delivery_isolation.1 threeConns updA ⟨2, true, false⟩
      (by simp [threeConns]) rfl).2 rfl),
   ((C4_delivery_isolation.2 threeConns updA ⟨1, true, true⟩
      (by simp [threeConns]) rfl).1 rfl),
   ((C4_delivery_isolation.2 threeConns updA ⟨3, true, true⟩
      (by simp [threeConns]) rfl).1 rfl),
   ((C4_delivery_isolation.2 threeConns updA ⟨2, true, false⟩
      (by simp [threeConns]) rfl).2 rfl)⟩

/-- Number of serializer invocations recorded in an event trace. -/
def serCount (evs : List Ev) : ℕ :=
  (evs.filter fun e => match e with | .ser _ => true | _ => false).length

theorem serCount_append (a b : List Ev) :
    serCount (a ++ b) = serCount a + serCount b := by
  simp [serCount, List.filter_append]

theorem serCount_safe_send_flatMap (l : List Conn) (s : String) :
    serCount (l.flatMap fun c => safe_send c s) = 0 := by
  induction l with
  | nil => rfl
  | cons c rest ih =>
      rw [List.flatMap_cons, serCount_append, ih]
      cases h : c.sendOk <;> simp [safe_send, h, serCount]

theorem serCount_all_safe_send_flatMap (l : List Conn) (u : J)
    (h : ∀ c ∈ l, c.isOpen = true) :
    serCount (l.flatMap fun c => all_safe_send c u) = l.length := by
  induction l with
  | nil => rfl
  | cons c rest ih =>
      rw [List.flatMap_cons, serCount_append,
        ih (fun d hd => h d (List.mem_cons_of_mem c hd))]
      have hopen : c.isOpen = true := h c (List.mem_cons_self c rest)
      cases hok : c.sendOk <;>
        simp [all_safe_send, hopen, hok, serCount, Nat.add_comm]

/-- C6 (amended): each broadcast call serializes the update exactly once in
the raw-socket variant; the HTTP variant serializes once for the log plus
once per open recipient (producing the identical text each time).  In both
variants the serialized text is logged before any delivery (the trace opens
with the serialize and log events), every delivered payload is exactly that
variant's one serialization, and every open connection in the snapshot —
the producing connection included — gets a delivery attempt with it. -/
theorem C6_serialize_and_log :
    (∀ (clients : List Conn) (u : J), serCount (broadcast_json clients u) = 1) ∧
    (∀ (clients : List Conn) (u : J),
       serCount (broadcast_all clients u) =
         1 + (clients.filter (·.isOpen)).length) ∧
    (∀ (clients : List Conn) (u : J),
       (broadcast_json clients u).take 2 =
         [.ser (dumpsServer u), .log (dumpsServer u)] ∧
       (broadcast_all clients u).take 2 = [.ser (pretty u), .log (pretty u)]) ∧
    (∀ (clients : List Conn) (u : J) (c : ℕ) (s' : String),
       Ev.sent c s' ∈ broadcast_json clients u → s' = dumpsServer u) ∧
    (∀ (clients : List Conn) (u : J) (c : ℕ) (s' : String),
       Ev.sent c s' ∈ broadcast_all clients u → s' = pretty u) ∧
    (∀ (clients : List Conn) (u : J) (c : Conn), c ∈ clients →
       c.isOpen = true → c.sendOk = true →
       Ev.sent c.cid (dumpsServer u) ∈ broadcast_json clients u ∧
       Ev.sent c.cid (pretty u) ∈ broadcast_all clients u) := by
  refine ⟨?_, ?_, ?_, ?_, ?_, ?_⟩
  · intro clients u
    have h := serCount_safe_send_flatMap (clients.filter (·.isOpen))
      (dumpsServer u)
    simp only [broadcast_json]
    rw [serCount_append, h]
    rfl
  · intro clients u
    have h := serCount_all_safe_send_flatMap (clients.filter (·.isOpen)) u
      (fun c hc => (List.mem_filter.mp hc).2)
    simp only [broadcast_all]
    rw [serCount_append, h]
    rfl
  · intro clients u
    constructor <;> rfl
  · intro clients u c s' h
    simp only [broadcast_json, List.cons_append, List.nil_append,
      List.mem_cons, List.mem_flatMap] at h
    rcases h with h | h | ⟨d, _, hd⟩
    · exact absurd h (by simp)
    · exact absurd h (by simp)
    · cases hok : d.sendOk <;> simp [safe_send, hok] at hd
      exact hd.2
  · intro clients u c s' h
    simp only [broadcast_all, List.cons_append, List.nil_append,
      List.mem_cons, List.mem_flatMap] at h
    rcases h with h | h | ⟨d, hdf, hd⟩
    · exact absurd h (by simp)
    · exact absurd h (by simp)
    · have hopen : d.isOpen = true := (List.mem_filter.mp hdf).2
      cases hok : d.sendOk <;> simp [all_safe_send, hopen, hok] at hd
      exact hd.2
  · intro clients u c hmem hopen hok
    exact ⟨(broadcast_json_mem hmem hopen).1 hok,
           (broadcast_all_mem hmem hopen).1 hok⟩

/-- Witness for C6 at a concrete broadcast: one serialization in the
raw-socket variant, the log-then-deliver prefix, and delivery of the single
serialization to an open connection. -/
theorem C6_serialize_and_log_witness :
    serCount (broadcast_json threeConns updA) = 1 ∧
    (broadcast_json threeConns updA).take 2 =
      [.ser (dumpsServer updA), .log (dumpsServer updA)] ∧
    ((⟨1, true, true⟩ : Conn) ∈ threeConns ∧
     Ev.sent 1 (dumpsServer updA) ∈ broadcast_json threeConns updA ∧
     Ev.sent 1 (pretty updA) ∈ broadcast_all threeConns updA) :=
  ⟨C6_serialize_and_log.1 threeConns updA,
   (C6_serialize_and_log.2.2.1 threeConns updA).1,
   by simp [threeConns],
   (C6_serialize_and_log.2.2.2.2.2 threeConns updA ⟨1, true, true⟩
     (by simp [threeConns]) rfl rfl).1,
   (C6_serialize_and_log.2.2.2.2.2 threeConns updA ⟨1, true, true⟩
     (by simp [threeConns]) rfl rfl).2⟩

/-- Counterexample to C6 as stated: with a single open connection the HTTP
variant's broadcast serializes the update twice (once for the log and once
inside `_safe_send`), not exactly once. -/
theorem C6_double_serialize_counterexample :
    serCount (broadcast_all [⟨0, true, true⟩] J.null) = 2 ∧
    serCount (broadcast_json [⟨0, true, true⟩] J.null) = 1 :=
  ⟨by with_unfolding_all rfl, by with_unfolding_all rfl⟩

theorem updateJ_ts (cid : J) (ts : NB) (px py pz rx ry rz rw : PyFloat)
    (vel : Option Vel) :
    jGet (updateJ cid ts px py pz rx ry rz rw vel) "ts" = some (nbToJ ts) := by
  simp [updateJ, jGet, lookupField]

theorem updateJ_position (cid : J) (ts : NB) (px py pz rx ry rz rw : PyFloat)
    (vel : Option Vel) :
    jGet (updateJ cid ts px py pz rx ry rz rw vel) "position" =
      some (posObjJ px py pz) := by
  simp [updateJ, jGet, lookupField]

theorem updateJ_rotation (cid : J) (ts : NB) (px py pz rx ry rz rw : PyFloat)
    (vel : Option Vel) :
    jGet (updateJ cid ts px py pz rx ry rz rw vel) "rotation" =
      some (rotObjJ rx ry rz rw) := by
  simp [updateJ, jGet, lookupField]

theorem jAsNB_nbToJ (ts : NB) : jAsNB (nbToJ ts) = some ts := by
  cases ts <;> rfl

theorem extract7_pose_objects (px py pz rx ry rz rw : PyFloat) :
    extract7 (posObjJ px py pz) (rotObjJ rx ry rz rw) =
      some (px, py, pz, rx, ry, rz, rw) := by
  refine extract7_some_iff.mpr ⟨?_, ?_, ?_, ?_, ?_, ?_, ?_⟩ <;>
    simp [fl, posObjJ, rotObjJ, jGet, lookupField, pyFloat]

theorem serverDecide_accept_intro {j : J} (st : Option LastPose)
    (clk : ℚ) {px py pz rx ry rz rw : PyFloat} (hobj : jIsObj j = true)
    (htp : jTruthy ((jGet j "position").getD .null) = true)
    (htr : jTruthy ((jGet j "rotation").getD .null) = true)
    (hext : extract7 ((jGet j "position").getD .null)
      ((jGet j "rotation").getD .null) = some (px, py, pz, rx, ry, rz, rw)) :
    serverDecide st clk (.payload j) =
      .accept
        ⟨(jGet j "clientId").getD (.str "unknown"),
         server_ts j clk, px, py, pz, rx, ry, rz, rw⟩
        (updateJ ((jGet j "clientId").getD (.str "unknown"))
          (server_ts j clk) px py pz rx ry rz rw
          (server_velocity st px py pz (server_ts j clk)
            (.float (.fin clk)))) := by
  cases j with
  | obj fs =>
      simp only [serverDecide]
      rw [if_neg (by simp [htp, htr]), hext]
  | null => simp [jIsObj] at hobj
  | bool b => simp [jIsObj] at hobj
  | num v => simp [jIsObj] at hobj
  | str s' => simp [jIsObj] at hobj
  | arr xs => simp [jIsObj] at hobj

theorem server_ts_updateJ {t : NB} (cid : J) (px py pz rx ry rz rw : PyFloat)
    (vel : Option Vel) (clk' : ℚ) (hgt : nbGtQ t (10 ^ 12) = false) :
    server_ts (updateJ cid t px py pz rx ry rz rw vel) clk' = t := by
  have h1 : (jGet (updateJ cid t px py pz rx ry rz rw vel) "ts").bind jAsNB =
      some t := by
    rw [updateJ_ts]
    simp [jAsNB_nbToJ]
  simp [server_ts, h1, hgt]

/-- C8 (amended): serializing an accepted sample's EnrichedUpdate and
feeding it back through the raw-socket parser/validator (velocity ignored)
recovers the original clientId, timestamp, position and rotation exactly —
PROVIDED the sample's normalized timestamp does not compare greater than
1e12; a finite normalized timestamp above 1e12 is divided by 1000 a second
time on re-parse and is not recovered. -/
theorem C8_roundtrip {st : Option LastPose} {clk : ℚ} {j : J} {s : Sample}
    {u : J} (h : serverDecide st clk (.payload j) = .accept s u)
    (hts : nbGtQ s.ts (10 ^ 12) = false) (st' : Option LastPose) (clk' : ℚ) :
    ((serverDecide st' clk' (.payload u)).sampleOf).map Sample.cid = some s.cid ∧
    ((serverDecide st' clk' (.payload u)).sampleOf).map Sample.ts = some s.ts ∧
    ((serverDecide st' clk' (.payload u)).sampleOf).map Sample.px = some s.px ∧
    ((serverDecide st' clk' (.payload u)).sampleOf).map Sample.py = some s.py ∧
    ((serverDecide st' clk' (.payload u)).sampleOf).map Sample.pz = some s.pz ∧
    ((serverDecide st' clk' (.payload u)).sampleOf).map Sample.rx = some s.rx ∧
    ((serverDecide st' clk' (.payload u)).sampleOf).map Sample.ry = some s.ry ∧
    ((serverDecide st' clk' (.payload u)).sampleOf).map Sample.rz = some s.rz ∧
    ((serverDecide st' clk' (.payload u)).sampleOf).map Sample.rw = some s.rw := by
  obtain ⟨px, py, pz, rx, ry, rz, rw, hext, htp, htr, hs, hu⟩ :=
    serverDecide_accept_inv h
  subst hs
  subst hu
  have hgt : nbGtQ (server_ts j clk) (10 ^ 12) = false := hts
  have hd := serverDecide_accept_intro
    (j := updateJ ((jGet j "clientId").getD (.str "unknown")) (server_ts j clk)
      px py pz rx ry rz rw
      (server_velocity st px py pz (server_ts j clk) (.float (.fin clk))))
    st' clk'
    (by simp [updateJ, jIsObj])
    (by rw [updateJ_position]; simp [jTruthy, posObjJ])
    (by rw [updateJ_rotation]; simp [jTruthy, rotObjJ])
    (by rw [updateJ_position, updateJ_rotation]
        simpa using extract7_pose_objects px py pz rx ry rz rw)
  rw [hd]
  simp only [Decision.sampleOf, Option.map_some, updateJ_clientId,
    Option.getD_some, server_ts_updateJ _ _ _ _ _ _ _ _ _ clk' hgt]
  exact ⟨rfl, rfl, rfl, rfl, rfl, rfl, rfl, rfl, rfl⟩

/-- Witness for C8: the round trip at the concrete accepted message `msgA`
(timestamp 1000 s, well under 1e12). -/
theorem C8_roundtrip_witness :
    serverDecide none 5 (.payload msgA) = .accept sampleA updA ∧
    nbGtQ sampleA.ts (10 ^ 12) = false ∧
    (((serverDecide none 7 (.payload updA)).sampleOf).map Sample.cid =
       some sampleA.cid ∧
     ((serverDecide none 7 (.payload updA)).sampleOf).map Sample.ts =
       some sampleA.ts ∧
     ((serverDecide none 7 (.payload updA)).sampleOf).map Sample.px =
       some sampleA.px ∧
     ((serverDecide none 7 (.payload updA)).sampleOf).map Sample.py =
       some sampleA.py ∧
     ((serverDecide none 7 (.payload updA)).sampleOf).map Sample.pz =
       some sampleA.pz ∧
     ((serverDecide none 7 (.payload updA)).sampleOf).map Sample.rx =
       some sampleA.rx ∧
     ((serverDecide none 7 (.payload updA)).sampleOf).map Sample.ry =
       some sampleA.ry ∧
     ((serverDecide none 7 (.payload updA)).sampleOf).map Sample.rz =
       some sampleA.rz ∧
     ((serverDecide none 7 (.payload updA)).sampleOf).map Sample.rw =
       some sampleA.rw) :=
  ⟨by with_unfolding_all rfl, by with_unfolding_all rfl,
   @C8_roundtrip none 5 msgA sampleA updA (by with_unfolding_all rfl)
     (by with_unfolding_all rfl) none 7⟩

/-- A message whose raw `ts` is 2e15 (epoch milliseconds beyond 1e15), so
the normalized sample timestamp 2e12 still exceeds 1e12. -/
def msgHugeTs : J :=
  .obj [("ts", .num (.int 2000000000000000)),
        ("position", posObjJ (.fin 1) (.fin 0) (.fin 0)),
        ("rotation", rotObjJ (.fin 0) (.fin 0) (.fin 0) (.fin 1))]

/-- The sample accepted from `msgHugeTs` (normalized ts = 2e12 seconds). -/
def sampleHuge : Sample :=
  ⟨.str "unknown", .float (.fin 2000000000000), .fin 1, .fin 0, .fin 0,
   .fin 0, .fin 0, .fin 0, .fin 1⟩

/-- The update broadcast for `msgHugeTs` accepted with no prior state. -/
def updHuge : J :=
  updateJ (.str "unknown") (.float (.fin 2000000000000)) (.fin 1) (.fin 0)
    (.fin 0) (.fin 0) (.fin 0) (.fin 0) (.fin 1) none

/-- Counterexample to C8 as stated: a sample with normalized timestamp 2e12
seconds round-trips to 2e9 — the re-parse applies the millisecond heuristic
a second time, so the timestamp is NOT recovered exactly. -/
theorem C8_huge_ts_counterexample :
    serverDecide none 0 (.payload msgHugeTs) = .accept sampleHuge updHuge ∧
    ((serverDecide none 0 (.payload updHuge)).sampleOf).map Sample.ts =
      some (.float (.fin 2000000000)) ∧
    NB.float (.fin 2000000000) ≠ sampleHuge.ts :=
  ⟨by with_unfolding_all rfl, by with_unfolding_all rfl,
   by with_unfolding_all decide⟩

/-- The kind of action a decision takes (used to compare the two variants'
accept-or-drop behaviour independently of the payload they build). -/
inductive DKind where
  | dropLog
  | dropSilent
  | accept
deriving DecidableEq

/-- The kind of a `Decision`. -/
def Decision.kind : Decision → DKind
  | .dropLog => .dropLog
  | .dropSilent => .dropSilent
  | .accept _ _ => .accept

theorem jGet_some_props {P : J} {k : String} {v : J} (h : jGet P k = some v) :
    jIsObj P = true ∧ jTruthy P = true := by
  cases P with
  | obj fs =>
      cases fs with
      | nil => simp [jGet, lookupField] at h
      | cons a rest => simp [jIsObj, jTruthy]
  | null => simp [jGet] at h
  | bool b => simp [jGet] at h
  | num v' => simp [jGet] at h
  | str s' => simp [jGet] at h
  | arr xs => simp [jGet] at h

theorem extract7_props {P R : J}
    {t : PyFloat × PyFloat × PyFloat × PyFloat × PyFloat × PyFloat × PyFloat}
    (h : extract7 P R = some t) :
    jIsObj P = true ∧ jTruthy P = true ∧ jIsObj R = true ∧ jTruthy R = true := by
  obtain ⟨px, py, pz, rx, ry, rz, rw⟩ := t
  obtain ⟨hx, _, _, h1, _, _, _⟩ := extract7_some_iff.mp h
  obtain ⟨vx, hvx, _⟩ := Option.bind_eq_some.mp hx
  obtain ⟨v1, hv1, _⟩ := Option.bind_eq_some.mp h1
  obtain ⟨hP1, hP2⟩ := jGet_some_props hvx
  obtain ⟨hR1, hR2⟩ := jGet_some_props hv1
  exact ⟨hP1, hP2, hR1, hR2⟩

theorem allDecide_accept_intro {j : J} (st : Option LastPose) (clk clk2 : ℚ)
    {px py pz rx ry rz rw : PyFloat} (hobj : jIsObj j = true)
    (hp : jIsObj ((jGet j "position").getD .null) = true)
    (hr : jIsObj ((jGet j "rotation").getD .null) = true)
    (hext : extract7 ((jGet j "position").getD .null)
      ((jGet j "rotation").getD .null) = some (px, py, pz, rx, ry, rz, rw)) :
    allDecide st clk clk2 (.payload j) =
      .accept
        ⟨(jGet j "clientId").getD (.str "unknown"),
         .float (all_ts j clk), px, py, pz, rx, ry, rz, rw⟩
        (updateJ ((jGet j "clientId").getD (.str "unknown"))
          (.float (all_ts j clk)) px py pz rx ry rz rw
          (compute_velocity st px py pz (.float (all_ts j clk))
            (.float (.fin clk2)))) := by
  cases j with
  | obj fs =>
      simp only [allDecide]
      rw [if_neg (by simp [hp, hr]), hext]
  | null => simp [jIsObj] at hobj
  | bool b => simp [jIsObj] at hobj
  | num v => simp [jIsObj] at hobj
  | str s' => simp [jIsObj] at hobj
  | arr xs => simp [jIsObj] at hobj

/-- Whether the normalized timestamp of a payload is representation-stable
across the two variants: true when `ts` is absent or non-numeric (both
substitute the wall clock), already a float, or a value the heuristic
divides by 1000 (yielding a float in both).  False exactly when a raw `int`
or `bool` not exceeding 1e12 is kept: the raw-socket variant keeps the
exact type while the HTTP variant coerces it with `float()`. -/
def tsRetainsFloat (j : J) : Bool :=
  match (jGet j "ts").bind jAsNB with
  | none => true
  | some (.float _) => true
  | some nb => nbGtQ nb (10 ^ 12)

theorem server_ts_eq_all_ts {j : J} (clk : ℚ) (h : tsRetainsFloat j = true) :
    server_ts j clk = .float (all_ts j clk) := by
  unfold tsRetainsFloat at h
  unfold server_ts all_ts
  rcases hb : (jGet j "ts").bind jAsNB with _ | nb
  · rfl
  · rw [hb] at h
    cases nb with
    | float f =>
        by_cases hgt : nbGtQ (NB.float f) (10 ^ 12) = true <;>
          simp [hgt, NB.toF]
    | int n =>
        simp only at h
        simp [h, NB.toF]
    | bool b =>
        simp only at h
        simp [h, NB.toF]

theorem pfSub_ne_sqrtDiv (a b : PyFloat) (s d : ℚ) :
    pfSub a b ≠ .sqrtDiv s d := by
  cases a <;> cases b <;> simp [pfSub]

theorem nbSub_ne_sqrtDiv (a b : NB) (s d : ℚ) :
    nbSub a b ≠ .float (.sqrtDiv s d) := by
  cases a <;> cases b <;>
    simp [nbSub, NB.toF, NB.toI, pfSub_ne_sqrtDiv]

theorem pnGtZ_eq_not_pnLeZ {d : PyNum} (hnan : pnIsNan d = false)
    (hsq : ∀ s q, d ≠ .float (.sqrtDiv s q)) : pnGtZ d = !pnLeZ d := by
  cases d with
  | int n =>
      simp only [pnGtZ, pnLeZ, pnToF, PyFloat.xf, xfGt, xfGe]
      by_cases h : (0 : ℚ) < (n : ℚ)
      · simp [h, not_le.mpr h]
      · simp [h, not_lt.mp h]
  | float f =>
      cases f with
      | fin q =>
          simp only [pnGtZ, pnLeZ, pnToF, PyFloat.xf, xfGt, xfGe]
          by_cases h : (0 : ℚ) < q
          · simp [h, not_le.mpr h]
          · simp [h, not_lt.mp h]
      | inf => rfl
      | ninf => rfl
      | nan => simp [pnIsNan] at hnan
      | sqrtDiv s q => exact absurd rfl (hsq s q)

/-- Whether the elapsed-time value the velocity code would use is NaN for
the given prior state (the one situation where the two variants' guards
`dt > 0` and `not (dt <= 0)` disagree). -/
def dtOK (st : Option LastPose) (ts_s fb : NB) : Bool :=
  match st with
  | none => true
  | some l => !(pnIsNan (dt_used l ts_s fb))

theorem server_velocity_eq_compute {st : Option LastPose}
    {px py pz : PyFloat} {ts fb : NB} (h : dtOK st ts fb = true) :
    server_velocity st px py pz ts fb = compute_velocity st px py pz ts fb := by
  cases st with
  | none => rfl
  | some l =>
      simp only [dtOK, Bool.not_eq_true'] at h
      have hsq : ∀ s q, dt_used l ts fb ≠ .float (.sqrtDiv s q) := by
        intro s q
        unfold dt_used
        by_cases hge : nbGe ts l.ts = true <;>
          simp [hge, nbSub_ne_sqrtDiv, PyNum.float.injEq]
      simp only [server_velocity, compute_velocity,
        pnGtZ_eq_not_pnLeZ h hsq]
      by_cases hle : pnLeZ (dt_used l ts fb) = true <;> simp [hle]

/-- Whether every character of a string is ASCII. -/
def strAscii (s : String) : Bool := s.toList.all fun c => decide (c.toNat < 128)

theorem escChar_ascii {c : Char} (h : c.toNat < 128) :
    escChar true c = escChar false c := by
  simp [escChar, Nat.not_le.mpr h]

theorem jstrBodyL_ascii : ∀ cs : List Char, (∀ c ∈ cs, c.toNat < 128) →
    jstrBodyL true cs = jstrBodyL false cs
  | [], _ => rfl
  | c :: rest, h => by
      simp only [jstrBodyL]
      rw [escChar_ascii (h c (by simp)),
        jstrBodyL_ascii rest (fun d hd => h d (by simp [hd]))]

theorem jstrBody_ascii {s : String} (h : strAscii s = true) :
    jstrBody true s = jstrBody false s :=
  jstrBodyL_ascii s.toList
    (by simpa [strAscii, List.all_eq_true] using h)

mutual
/-- Whether a JSON tree contains only ASCII strings (in values and keys),
so that the two `ensure_ascii` modes serialize it identically. -/
def asciiOnly : J → Bool
  | .null => true
  | .bool _ => true
  | .num _ => true
  | .str s => strAscii s
  | .arr xs => asciiOnlyL xs
  | .obj fields => asciiOnlyKV fields

/-- ASCII-only check for a JSON array's elements. -/
def asciiOnlyL : List J → Bool
  | [] => true
  | x :: rest => asciiOnly x && asciiOnlyL rest

/-- ASCII-only check for a JSON object's fields. -/
def asciiOnlyKV : List (String × J) → Bool
  | [] => true
  | (k, v) :: rest => strAscii k && (asciiOnly v && asciiOnlyKV rest)
end

mutual
theorem dumps_ascii : ∀ j : J, asciiOnly j = true →
    dumps true j = dumps false j
  | .null, _ => rfl
  | .bool b, _ => rfl
  | .num v, _ => rfl
  | .str s, h => by
      simp only [dumps]
      rw [jstrBody_ascii (by simpa [asciiOnly] using h)]
  | .arr xs, h => by
      simp only [dumps]
      rw [dumpsL_ascii xs (by simpa [asciiOnly] using h)]
  | .obj fields, h => by
      simp only [dumps]
      rw [dumpsKV_ascii fields (by simpa [asciiOnly] using h)]

theorem dumpsL_ascii : ∀ xs : List J, asciiOnlyL xs = true →
    dumpsL true xs = dumpsL false xs
  | [], _ => rfl
  | [x], h => by
      simp only [dumpsL]
      exact dumps_ascii x (by simpa [asciiOnlyL] using h)
  | x :: y :: rest, h => by
      have h1 : asciiOnly x = true ∧ asciiOnlyL (y :: rest) = true := by
        simpa [asciiOnlyL, Bool.and_eq_true] using h
      simp only [dumpsL]
      rw [dumps_ascii x h1.1, dumpsL_ascii (y :: rest) h1.2]

theorem dumpsKV_ascii : ∀ fields : List (String × J), asciiOnlyKV fields = true →
    dumpsKV true fields = dumpsKV false fields
  | [], _ => rfl
  | [(k, v)], h => by
      have h1 : strAscii k = true ∧ asciiOnly v = true := by
        simpa [asciiOnlyKV, Bool.and_eq_true] using h
      simp only [dumpsKV]
      rw [jstrBody_ascii h1.1, dumps_ascii v h1.2]
  | (k, v) :: y :: rest, h => by
      have h1 : strAscii k = true ∧ asciiOnly v = true ∧
          asciiOnlyKV (y :: rest) = true := by
        simpa [asciiOnlyKV, Bool.and_eq_true] using h
      simp only [dumpsKV]
      rw [jstrBody_ascii h1.1, dumps_ascii v h1.2.1,
        dumpsKV_ascii (y :: rest) h1.2.2]
end

/-- C9 (amended): on the same inbound message, prior state and clock
readings, the two variants always make the same accept-or-drop decision
with the same drop-vs-log policy; and when both accept, they construct the
identical enriched update PROVIDED (a) the raw `ts` is absent, non-numeric,
already a float, or a numeric value the heuristic divides
(`tsRetainsFloat`), and (b) the velocity elapsed time is not NaN (`dtOK`) —
and the serialized broadcast texts additionally coincide PROVIDED (c) the
update contains only ASCII strings, since `server.py` serializes with the
default `ensure_ascii=True` while `all_in_one.py` passes
`ensure_ascii=False`.  (Outside (a) the raw-socket variant keeps an
`int`/`bool` timestamp verbatim where the HTTP variant coerces to float;
outside (b) the raw-socket `dt > 0` guard drops a NaN velocity that the
HTTP `dt <= 0` guard attaches; outside (c) non-ASCII characters broadcast
as `\uXXXX` escapes in one variant and verbatim in the other.) -/
theorem C9_variant_equivalence :
    (∀ st clk clk2 m,
       (serverDecide st clk m).kind = (allDecide st clk clk2 m).kind) ∧
    (∀ st clk (j : J) (s s' : Sample) (u u' : J),
       serverDecide st clk (.payload j) = .accept s u →
       allDecide st clk clk (.payload j) = .accept s' u' →
       tsRetainsFloat j = true →
       dtOK st (server_ts j clk) (.float (.fin clk)) = true →
       u = u' ∧ (asciiOnly u = true → dumpsServer u = pretty u')) := by
  constructor
  · intro st clk clk2 m
    cases m with
    | malformed => rfl
    | payload j =>
        cases hj : jIsObj j with
        | false =>
            rw [serverDecide_nonobj st clk hj, allDecide_nonobj st clk clk2 hj]
        | true =>
            rcases hext : extract7 ((jGet j "position").getD .null)
                ((jGet j "rotation").getD .null) with _ | t
            · rw [serverDecide_silent st clk hj (Or.inl hext),
                allDecide_silent st clk clk2 hj (Or.inl hext)]
            · obtain ⟨px, py, pz, rx, ry, rz, rw⟩ := t
              obtain ⟨hp1, hp2, hr1, hr2⟩ := extract7_props hext
              rw [serverDecide_accept_intro st clk hj hp2 hr2 hext,
                allDecide_accept_intro st clk clk2 hj hp1 hr1 hext]
              rfl
  · intro st clk j s s' u u' hS hA hts hdt
    obtain ⟨px, py, pz, rx, ry, rz, rw, hextS, _, _, hsS, huS⟩ :=
      serverDecide_accept_inv hS
    obtain ⟨qx, qy, qz, wx, wy, wz, ww, hextA, _, _, hsA, huA⟩ :=
      allDecide_accept_inv hA
    rw [hextS] at hextA
    simp only [Option.some.injEq, Prod.mk.injEq] at hextA
    obtain ⟨rfl, rfl, rfl, rfl, rfl, rfl, rfl⟩ := hextA
    have hts2 := server_ts_eq_all_ts clk hts
    subst huS huA
    rw [hts2, server_velocity_eq_compute (by rw [← hts2]; exact hdt)]
    exact ⟨rfl, fun ha => dumps_ascii _ ha⟩

/-- Witness for C9: on the float-timestamped, all-ASCII `msgA` with empty
prior state, both variants accept and build the identical update, whose two
serializations coincide. -/
theorem C9_variant_equivalence_witness :
    (serverDecide none 5 (.payload msgA)).kind =
      (allDecide none 5 6 (.payload msgA)).kind ∧
    serverDecide none 5 (.payload msgA) = .accept sampleA updA ∧
    allDecide none 5 5 (.payload msgA) = .accept sampleA updA ∧
    tsRetainsFloat msgA = true ∧
    dtOK none (server_ts msgA 5) (.float (.fin 5)) = true ∧
    (updA = updA ∧ (asciiOnly updA = true → dumpsServer updA = pretty updA)) ∧
    asciiOnly updA = true :=
  ⟨C9_variant_equivalence.1 none 5 6 (.payload msgA),
   by with_unfolding_all rfl, by with_unfolding_all rfl, rfl, rfl,
   C9_variant_equivalence.2 none 5 msgA sampleA sampleA updA updA
     (by with_unfolding_all rfl) (by with_unfolding_all rfl) rfl rfl,
   by with_unfolding_all rfl⟩

/-- A message with the integer timestamp 1000 (well under 1e12). -/
def msgIntTs : J :=
  .obj [("ts", .num (.int 1000)),
        ("position", posObjJ (.fin 1) (.fin 0) (.fin 0)),
        ("rotation", rotObjJ (.fin 0) (.fin 0) (.fin 0) (.fin 1))]

/-- A message whose `clientId` contains the non-ASCII character `é` and
whose `ts` is absent, so both variants build the identical update tree. -/
def msgNonAscii : J :=
  .obj [("clientId", .str "é"),
        ("position", posObjJ (.fin 1) (.fin 0) (.fin 0)),
        ("rotation", rotObjJ (.fin 0) (.fin 0) (.fin 0) (.fin 1))]

/-- Counterexample to C9 as stated, on two independent inputs: (i) with
integer `ts` 1000 and the same empty prior state, both variants accept but
the raw-socket variant embeds `"ts": 1000` (a Python `int`) while the HTTP
variant embeds `"ts": 1000.0` (a `float`), so the enriched updates and
payloads differ; (ii) with a non-ASCII `clientId` `"é"` and `ts` absent —
where the update trees are identical and the ts/NaN provisos hold — the
broadcast texts still differ: the escape `\u00e9` under `server.py`'s
`ensure_ascii=True` versus the literal `é` under `all_in_one.py`'s
`ensure_ascii=False`. -/
theorem C9_payload_divergence_counterexample :
    ((serverDecide none 5 (.payload msgIntTs)).acc.bind
       (fun u => jGet u "ts")) = some (.num (.int 1000)) ∧
    ((allDecide none 5 5 (.payload msgIntTs)).acc.bind
       (fun u => jGet u "ts")) = some (.num (.float (.fin 1000))) ∧
    PyNum.int 1000 ≠ PyNum.float (.fin 1000) ∧
    (serverDecide none 5 (.payload msgIntTs)).acc.map dumpsServer ≠
      (allDecide none 5 5 (.payload msgIntTs)).acc.map pretty ∧
    tsRetainsFloat msgNonAscii = true ∧
    dtOK none (server_ts msgNonAscii 5) (.float (.fin 5)) = true ∧
    (serverDecide none 5 (.payload msgNonAscii)).acc =
      (allDecide none 5 5 (.payload msgNonAscii)).acc ∧
    (serverDecide none 5 (.payload msgNonAscii)).acc.map dumpsServer ≠
      (allDecide none 5 5 (.payload msgNonAscii)).acc.map pretty :=
  ⟨by with_unfolding_all rfl, by with_unfolding_all rfl,
   by with_unfolding_all decide, by with_unfolding_all decide, rfl, rfl,
   by with_unfolding_all rfl, by with_unfolding_all decide⟩
